import Mathlib

/-!
A shallow embedding of `tiny-c.c` (CCurl/mc): a lexer, recursive-descent
parser, byte-code generator and stack VM for a stripped-down C.  Machine
characters (the `code`/`char` cells of the byte buffer) are modelled as
natural numbers below 256 holding the bit pattern, with the signed reading
`s8` applied exactly where the C source reads a `char` back as an `int`.
Fallible operations return `Except`; the C process exit on error is
modelled by the error value.  Loops of the C source are modelled with
explicit fuel; all definitions are executable.
-/

namespace TinyC

/-! ### Constants from the source -/

def MAX_NODES : Nat := 1000
def DICT_SZ : Nat := 999
def VM_SZ : Nat := 4096

/-- `IsVar` kind tag. -/
def IsVar : Nat := 0
/-- `IsFunc` kind tag. -/
def IsFunc : Nat := 1

/-! ### Tokens (the `sym` codes of the lexer, with their attributes attached) -/

inductive Tok where
  | DO_SYM | ELSE_SYM | IF_SYM | WHILE_SYM | VOID_SYM | RET_SYM
  | LBRA | RBRA | LPAR | RPAR
  | PLUS | MINUS | STAR | SLASH | LESS | GRT | SEMI | EQUAL
  | INT (v : Nat)
  | ID (nm : String)
  | FUNC (nm : String)
  | EOI
deriving DecidableEq, Repr

/-! ### Errors.  Each constructor stands for one fatal diagnostic of the C
source followed by `exit(1)`:  `synErr` for `-syntax error-`, `lexChar` for
the `-ch-` diagnostic, `notDefined`/`alreadyDefined` for the two
function-resolution diagnostics, `nodePool` for the `error("")` raised by a
full AST pool.  `outOfFuel` is an artefact of the fuel discipline only. -/

inductive Err where
  | synErr
  | lexChar
  | notDefined (nm : String)
  | alreadyDefined (nm : String)
  | nodePool
  | outOfFuel
deriving DecidableEq, Repr

deriving instance DecidableEq for Except

/-! ### Lexer -/

def isAlpha (c : Char) : Bool :=
  ('A' ≤ c && c ≤ 'Z') || ('a' ≤ c && c ≤ 'z') || c = '_'

def isNum (c : Char) : Bool := '0' ≤ c && c ≤ '9'

def isAlphaNum (c : Char) : Bool := isAlpha c || isNum c

/-- `next_ch`: the current character together with the rest of the input;
`none` models `EOF`. -/
def nextCh : List Char → Option Char × List Char
  | [] => (none, [])
  | c :: r => (some c, r)

/-- The digit-scanning loop of `next_sym` (`int_val = int_val*10 + (ch-'0')`). -/
def numScan (fuel : Nat) (acc : Nat) (ch : Option Char) (inp : List Char) :
    Except Err (Nat × Option Char × List Char) :=
  match fuel with
  | 0 => .error .outOfFuel
  | fuel + 1 =>
    match ch with
    | some c =>
      if isNum c then
        let (ch', inp') := nextCh inp
        numScan fuel (acc * 10 + (c.toNat - '0'.toNat)) ch' inp'
      else .ok (acc, ch, inp)
    | none => .ok (acc, ch, inp)

/-- The identifier-scanning loop of `next_sym` (`id_name[i++] = ch`).
The C source copies into a 64-byte buffer with no bound check; the scan is
modelled without truncation. -/
def idScan (fuel : Nat) (acc : List Char) (ch : Option Char) (inp : List Char) :
    Except Err (List Char × Option Char × List Char) :=
  match fuel with
  | 0 => .error .outOfFuel
  | fuel + 1 =>
    match ch with
    | some c =>
      if isAlphaNum c then
        let (ch', inp') := nextCh inp
        idScan fuel (acc ++ [c]) ch' inp'
      else .ok (acc, ch, inp)
    | none => .ok (acc, ch, inp)

/-- `lcomment`: skip to end of line or end of file. -/
def lcomment (fuel : Nat) (ch : Option Char) (inp : List Char) :
    Except Err (Option Char × List Char) :=
  match fuel with
  | 0 => .error .outOfFuel
  | fuel + 1 =>
    match ch with
    | none => .ok (none, inp)
    | some c =>
      if c = '\n' then .ok (some c, inp)
      else
        let (ch', inp') := nextCh inp
        lcomment fuel ch' inp'

/-- The reserved-word table `words`. -/
def words : List (String × Tok) :=
  [("do", .DO_SYM), ("else", .ELSE_SYM), ("if", .IF_SYM),
   ("while", .WHILE_SYM), ("void", .VOID_SYM), ("return", .RET_SYM)]

/-- `next_sym`: produce the next token from the staged character `ch` and the
remaining input. -/
def nextSym (fuel : Nat) (ch : Option Char) (inp : List Char) :
    Except Err (Tok × Option Char × List Char) :=
  match fuel with
  | 0 => .error .outOfFuel
  | fuel + 1 =>
    match ch with
    | none => .ok (.EOI, none, inp)
    | some c =>
      if c = ' ' || c = '\t' || c = '\n' || c = '\r' then
        let (ch', inp') := nextCh inp
        nextSym fuel ch' inp'
      else if c = '{' then let (ch', inp') := nextCh inp; .ok (.LBRA, ch', inp')
      else if c = '}' then let (ch', inp') := nextCh inp; .ok (.RBRA, ch', inp')
      else if c = '(' then let (ch', inp') := nextCh inp; .ok (.LPAR, ch', inp')
      else if c = ')' then let (ch', inp') := nextCh inp; .ok (.RPAR, ch', inp')
      else if c = '+' then let (ch', inp') := nextCh inp; .ok (.PLUS, ch', inp')
      else if c = '-' then let (ch', inp') := nextCh inp; .ok (.MINUS, ch', inp')
      else if c = '*' then let (ch', inp') := nextCh inp; .ok (.STAR, ch', inp')
      else if c = '/' then
        let (ch', inp') := nextCh inp
        if ch' = some '/' then
          match lcomment fuel ch' inp' with
          | .error e => .error e
          | .ok (ch'', inp'') => nextSym fuel ch'' inp''
        else .ok (.SLASH, ch', inp')
      else if c = '<' then let (ch', inp') := nextCh inp; .ok (.LESS, ch', inp')
      else if c = '>' then let (ch', inp') := nextCh inp; .ok (.GRT, ch', inp')
      else if c = ';' then let (ch', inp') := nextCh inp; .ok (.SEMI, ch', inp')
      else if c = '=' then let (ch', inp') := nextCh inp; .ok (.EQUAL, ch', inp')
      else if isNum c then
        match numScan fuel 0 ch inp with
        | .error e => .error e
        | .ok (v, ch', inp') => .ok (.INT v, ch', inp')
      else if isAlpha c then
        match idScan fuel [] ch inp with
        | .error e => .error e
        | .ok (cs, ch', inp') =>
          let nm := String.mk cs
          match (words.filter (fun w => w.1 = nm)).head? with
          | some w => .ok (w.2, ch', inp')
          | none =>
            if ch' = some '(' then
              let (ch'', inp'') := nextCh inp'
              if ch'' = some ')' then
                let (ch3, inp3) := nextCh inp''
                .ok (.FUNC nm, ch3, inp3)
              else .error .synErr
            else .ok (.ID nm, ch', inp')
      else .error .lexChar

/-- Tokenise a whole character stream (iterating `next_sym` to `EOI`). -/
def tokenize (fuel : Nat) (ch : Option Char) (inp : List Char) :
    Except Err (List Tok) :=
  match fuel with
  | 0 => .error .outOfFuel
  | fuel + 1 =>
    match nextSym (fuel + 1) ch inp with
    | .error e => .error e
    | .ok (t, ch', inp') =>
      if t = .EOI then .ok [t]
      else
        match tokenize fuel ch' inp' with
        | .error e => .error e
        | .ok ts => .ok (t :: ts)

/-- Tokenise a source string.  The C lexer starts with `ch = ' '` staged. -/
def tokenizeStr (fuel : Nat) (s : String) : Except Err (List Tok) :=
  tokenize fuel (some ' ') s.data

/-! ### AST node kinds (the parser enum, in source order) -/

def VAR : Nat := 0
def CST : Nat := 1
def ADD : Nat := 2
def SUB : Nat := 3
def MUL : Nat := 4
def DIV : Nat := 5
def LT : Nat := 6
def GT : Nat := 7
def SET : Nat := 8
def FUNC_DEF : Nat := 9
def FUNC_CALL : Nat := 10
def RET : Nat := 11
def IF1 : Nat := 12
def IF2 : Nat := 13
def WHILE : Nat := 14
def DO : Nat := 15
def EMPTY : Nat := 16
def SEQ : Nat := 17
def EXPR : Nat := 18
def PROG : Nat := 19

/-- `node_t`: kind tag, three child links and one integer payload.  `nil`
models a `NULL` child pointer; the generator never dereferences a child
that the parser did not set. -/
inductive node_t where
  | nil
  | mk (kind : Nat) (o1 o2 o3 : node_t) (val : Int)
deriving DecidableEq, Repr

/-- The kind tag of a node (`x->kind`); reading it from a `NULL` pointer
would be undefined in C, so `nil` is mapped to an unused sentinel. -/
def kindOf : node_t → Nat
  | .nil => 1000
  | .mk k _ _ _ _ => k

/-- The payload of a node (`x->val`). -/
def valOf : node_t → Int
  | .nil => 0
  | .mk _ _ _ _ v => v

/-! ### Symbol table -/

/-- `dict_t`: `{ int kind; long val; char nm[16]; }`. -/
structure dict_t where
  kind : Nat
  val : Int
  nm : String
deriving DecidableEq, Repr

/-- A zeroed entry: the C table is a file-scope array, zero-initialised. -/
def dict0 : dict_t := ⟨0, 0, ""⟩

/-- Write cell `p` of a zero-initialised C array modelled as a list with
default element `d`: pad with the default up to `p` if needed, then set.
Reading back with `List.getD _ _ d` behaves exactly like the array. -/
def padSet {α : Type} : List α → Nat → α → α → List α
  | [], 0, _, b => [b]
  | [], p + 1, d, b => d :: padSet [] p d b
  | _ :: xs, 0, _, b => b :: xs
  | x :: xs, p + 1, d, b => x :: padSet xs p d b

/-- Read cell `j` of the symbol-table array. -/
def dictAt (d : List dict_t) (j : Nat) : dict_t := d.getD j dict0

/-- Read cell `p` of the code buffer (a `char` bit pattern, `0 ≤ _ < 256`). -/
def vmAt (v : List Nat) (p : Nat) : Nat := v.getD p 0

/-- The file-scope compiler state: the token stream (staged lexer output),
the AST-pool counter `num_nodes`, the symbol table (`dict`, `last`) and the
code buffer (`vm`, `here`). -/
structure St where
  toks : List Tok
  nnodes : Nat
  last : Nat
  dict : List dict_t
  vm : List Nat
  here : Nat
deriving DecidableEq, Repr

def initSt (ts : List Tok) : St :=
  { toks := ts
    nnodes := 0
    last := 0
    dict := []
    vm := []
    here := 0 }

/-- `dict_add`: `dict_t *p=&dict[++last]; p->kind=kind; strcpy(p->nm,name);
return last;` — no capacity check, the name is copied without truncation,
and the `val` field is left as it was. -/
def dict_add (name : String) (kind : Nat) (s : St) : Nat × St :=
  let l := s.last + 1
  (l, { s with
          last := l
          dict := padSet s.dict l dict0 { dictAt s.dict l with kind := kind, nm := name } })

/-- The scan loop of `dict_find`, from index `i` downwards. -/
def dictFindFrom (d : List dict_t) (name : String) (kind : Nat) : Nat → Nat
  | 0 => 0
  | i + 1 =>
    if (dictAt d (i + 1)).nm = name && (dictAt d (i + 1)).kind = kind then i + 1
    else dictFindFrom d name kind i

/-- `dict_find`: newest-first linear scan; `0` means "not found". -/
def dict_find (name : String) (kind : Nat) (s : St) : Nat :=
  dictFindFrom s.dict name kind s.last

/-! ### Parser monad: state plus a fatal error that also carries the state
at the moment of `exit(1)` -/

def PM (α : Type) : Type := St → Except (Err × St) (α × St)

instance : Monad PM where
  pure a := fun s => .ok (a, s)
  bind m f := fun s =>
    match m s with
    | .ok (a, s') => f a s'
    | .error e => .error e

def perr {α : Type} (e : Err) : PM α := fun s => .error (e, s)

/-- The staged token (the lexer's `sym`); exhausted input stays `EOI`. -/
def curSym : PM Tok := fun s => .ok (s.toks.headD .EOI, s)

/-- `next_sym` as seen by the parser: advance to the next staged token. -/
def nextSymP : PM Unit := fun s => .ok ((), { s with toks := s.toks.tail })

/-- `new_node`: `if (MAX_NODES <= num_nodes) { error(""); }` then
`num_nodes++`.  Only the bounds check and the counter are modelled; the
node value is assembled functionally at each call site. -/
def new_node : PM Unit := fun s =>
  if MAX_NODES ≤ s.nnodes then .error (.nodePool, s)
  else .ok ((), { s with nnodes := s.nnodes + 1 })

/-- `expect_sym`: check the staged token and advance, else `syntax_error`. -/
def expect_sym (p : Tok → Bool) : PM Unit := fun s =>
  if p (s.toks.headD .EOI) then .ok ((), { s with toks := s.toks.tail })
  else .error (.synErr, s)

/-- The variable-resolution step of `term`:
`x->val = dict_find(id_name, IsVar); if (x->val==0) x->val = dict_add(...)`. -/
def resolveVar (nm : String) : PM Nat := fun s =>
  let v := dict_find nm IsVar s
  if v = 0 then .ok (dict_add nm IsVar s) else .ok (v, s)

/-- `mathop()`: the kind for the staged arithmetic-operator token, if any. -/
def mathop : Tok → Option Nat
  | .PLUS => some ADD
  | .MINUS => some SUB
  | .STAR => some MUL
  | .SLASH => some DIV
  | _ => none

def isID : Tok → Bool
  | .ID _ => true
  | _ => false

/-- The nonterminal being parsed; `sumLoop` and `blockLoop` carry the node
accumulated so far by the corresponding `while` loop of the source. -/
inductive NT where
  | term
  | sum
  | sumLoop (x : node_t)
  | test
  | expr
  | parenExpr
  | stmt
  | blockLoop (x : node_t)

/-- One layer of the mutually recursive descent of the source
(`term`/`sum`/`test`/`expr`/`paren_expr`/`statement`): `recur` stands for
the parse at one less fuel. -/
def parseStep (recur : NT → PM node_t) : NT → PM node_t
  | .term => do
    let t ← curSym
    match t with
    | .ID nm => do
      new_node
      let v ← resolveVar nm
      nextSymP
      pure (.mk VAR .nil .nil .nil (v : Int))
    | .INT n => do
      new_node
      nextSymP
      pure (.mk CST .nil .nil .nil (n : Int))
    | _ => recur .parenExpr
  | .sum => do
    let x ← recur .term
    recur (.sumLoop x)
  | .sumLoop x => do
    let t ← curSym
    match mathop t with
    | some k => do
      new_node
      nextSymP
      let y ← recur .term
      recur (.sumLoop (.mk k x y .nil 0))
    | none => pure x
  | .test => do
    let x ← recur .sum
    let t ← curSym
    if t = .LESS then do
      nextSymP
      let y ← recur .sum
      new_node
      pure (.mk LT x y .nil 0)
    else if t = .GRT then do
      nextSymP
      let y ← recur .sum
      new_node
      pure (.mk GT x y .nil 0)
    else pure x
  | .expr => do
    let t ← curSym
    if !isID t then recur .test
    else do
      let x ← recur .test
      let t' ← curSym
      if kindOf x = VAR && t' = .EQUAL then do
        nextSymP
        let rhs ← recur .expr
        new_node
        pure (.mk SET x rhs .nil 0)
      else pure x
  | .parenExpr => do
    expect_sym (· = .LPAR)
    let x ← recur .expr
    expect_sym (· = .RPAR)
    pure x
  | .stmt => do
    let t ← curSym
    match t with
    | .IF_SYM => do
      new_node
      nextSymP
      let cnd ← recur .parenExpr
      let th ← recur .stmt
      let t' ← curSym
      if t' = .ELSE_SYM then do
        nextSymP
        let el ← recur .stmt
        pure (.mk IF2 cnd th el 0)
      else pure (.mk IF1 cnd th .nil 0)
    | .WHILE_SYM => do
      new_node
      nextSymP
      let cnd ← recur .parenExpr
      let b ← recur .stmt
      pure (.mk WHILE cnd b .nil 0)
    | .FUNC nm => do
      new_node
      let v ← (fun s => .ok (dict_find nm IsFunc s, s) : PM Nat)
      if v = 0 then perr (.notDefined nm)
      else do
        nextSymP
        expect_sym (· = .SEMI)
        pure (.mk FUNC_CALL .nil .nil .nil (v : Int))
    | .RET_SYM => do
      nextSymP
      expect_sym (· = .SEMI)
      new_node
      pure (.mk RET .nil .nil .nil 0)
    | .DO_SYM => do
      new_node
      nextSymP
      let b ← recur .stmt
      expect_sym (· = .WHILE_SYM)
      let cnd ← recur .parenExpr
      expect_sym (· = .SEMI)
      pure (.mk DO b cnd .nil 0)
    | .SEMI => do
      new_node
      nextSymP
      pure (.mk EMPTY .nil .nil .nil 0)
    | .LBRA => do
      new_node
      nextSymP
      recur (.blockLoop (.mk EMPTY .nil .nil .nil 0))
    | .VOID_SYM => do
      nextSymP
      let t' ← curSym
      match t' with
      | .FUNC nm => do
        nextSymP
        new_node
        let v ← (fun s => .ok (dict_find nm IsFunc s, s) : PM Nat)
        if v ≠ 0 then perr (.alreadyDefined nm)
        else do
          let i ← (fun s => .ok (dict_add nm IsFunc s) : PM Nat)
          let t'' ← curSym
          if t'' ≠ .LBRA then perr .synErr
          else do
            let body ← recur .stmt
            pure (.mk FUNC_DEF body .nil .nil (i : Int))
      | _ => perr .synErr
    | _ => do
      let x ← recur .expr
      new_node
      expect_sym (· = .SEMI)
      pure (.mk EXPR x .nil .nil 0)
  | .blockLoop x => do
    let t ← curSym
    if t = .RBRA then do
      nextSymP
      pure x
    else do
      new_node
      let y ← recur .stmt
      recur (.blockLoop (.mk SEQ x y .nil 0))

/-- The fuelled recursive descent: iterate `parseStep`. -/
def parseNT : Nat → NT → PM node_t
  | 0 => fun _ => perr .outOfFuel
  | fuel + 1 => parseStep (parseNT fuel)

/-- `statement()`. -/
def statement (fuel : Nat) : PM node_t := parseNT fuel .stmt

/-- `program()`: `gen(PROG, NULL, NULL)` then one `statement`.  (The first
`next_sym()` of the source corresponds to the staging of the first token of
the stream.) -/
def program (fuel : Nat) : PM node_t := do
  new_node
  let x ← parseNT fuel .stmt
  pure (.mk PROG x .nil .nil 0)

/-! ### Code generator.  Opcodes in source order. -/

def HALT : Nat := 0
def FETCH : Nat := 1
def STORE : Nat := 2
def LIT1 : Nat := 3
def LIT2 : Nat := 4
def LIT : Nat := 5
def IDROP : Nat := 6
def IADD : Nat := 7
def ISUB : Nat := 8
def IMUL : Nat := 9
def IDIV : Nat := 10
def ILT : Nat := 11
def IGT : Nat := 12
def JZ : Nat := 13
def JNZ : Nat := 14
def JMP : Nat := 15
def ICALL : Nat := 16
def IRET : Nat := 17

/-- `g`: `vm[here++] = c` — the cell is a `char`, so the stored bit pattern
is the low byte of `c`; no overflow check (as the source notes). -/
def g (c : Int) (s : St) : St :=
  { s with
      vm := padSet s.vm s.here 0 ((c % 256).toNat)
      here := s.here + 1 }

/-- `g2`: low byte then high byte (`g(n & 0xff); n = n >> 8; g(n & 0xff)`);
`& 0xff` is `emod 256` and the arithmetic right shift is flooring division. -/
def g2 (n : Int) (s : St) : St :=
  let s := g (n % 256) s
  let n := n / 256
  g (n % 256) s

/-- `g4`: four bytes, little-endian. -/
def g4 (n : Int) (s : St) : St :=
  let s := g (n % 256) s
  let n := n / 256
  let s := g (n % 256) s
  let n := n / 256
  let s := g (n % 256) s
  let n := n / 256
  g (n % 256) s

/-- `hole()`: `return here++` — reserve one byte, return its offset. -/
def hole (s : St) : Nat × St := (s.here, { s with here := s.here + 1 })

/-- `fix(src, dst)`: `vm[src] = dst - src` — a `char` store keeps the low
byte of the displacement; no overflow check (as the source notes). -/
def fix (src : Nat) (dst : Nat) (s : St) : St :=
  { s with
      vm := padSet s.vm src 0 ((((dst : Int) - (src : Int)) % 256).toNat) }

/-- `dict[i].val = v` (used by `FUNC_DEF` lowering). -/
def setDictVal (i : Int) (v : Int) (s : St) : St :=
  if i < 0 then s
  else { s with
           dict := padSet s.dict i.toNat dict0 { dictAt s.dict i.toNat with val := v } }

/-- `c(node_t *x)`: lower one AST node to byte code (one case per kind,
exactly the `switch` of the source). -/
def c : node_t → St → St
  | .nil, s => s
  | .mk k o1 o2 o3 v, s =>
    if k = VAR then g2 v (g FETCH s)
    else if k = CST then
      if 0 ≤ v ∧ v ≤ 127 then g v (g LIT1 s)
      else if 128 ≤ v ∧ v ≤ 32767 then g2 v (g LIT2 s)
      else g4 v (g LIT s)
    else if k = ADD then g IADD (c o2 (c o1 s))
    else if k = MUL then g IMUL (c o2 (c o1 s))
    else if k = SUB then g ISUB (c o2 (c o1 s))
    else if k = DIV then g IDIV (c o2 (c o1 s))
    else if k = LT then g ILT (c o2 (c o1 s))
    else if k = GT then g IGT (c o2 (c o1 s))
    else if k = SET then g2 (valOf o1) (g STORE (c o2 s))
    else if k = IF1 then
      let s := c o1 s
      let s := g JZ s
      let (p1, s) := hole s
      let s := c o2 s
      fix p1 s.here s
    else if k = IF2 then
      let s := c o1 s
      let s := g JZ s
      let (p1, s) := hole s
      let s := c o2 s
      let s := g JMP s
      let (p2, s) := hole s
      let s := fix p1 s.here s
      let s := c o3 s
      fix p2 s.here s
    else if k = WHILE then
      let p1 := s.here
      let s := c o1 s
      let s := g JZ s
      let (p2, s) := hole s
      let s := c o2 s
      let s := g JMP s
      let (p3, s) := hole s
      let s := fix p3 p1 s
      fix p2 s.here s
    else if k = DO then
      let p1 := s.here
      let s := c o1 s
      let s := c o2 s
      let s := g JNZ s
      let (p2, s) := hole s
      fix p2 p1 s
    else if k = EMPTY then s
    else if k = SEQ then c o2 (c o1 s)
    else if k = EXPR then g IDROP (c o1 s)
    else if k = PROG then g HALT (c o1 s)
    else if k = RET then g IRET s
    else if k = FUNC_DEF then
      let s := setDictVal v s.here s
      let s := c o1 s
      g IRET s
    else if k = FUNC_CALL then g2 v (g ICALL s)
    else s

/-- `compile()` after parsing: the `JMP 0` prologue was emitted before
lowering; afterwards `main` is looked up and the prologue patched
(`vm[1] = (char)(dict[st].val - 1)`), or the opcode overwritten by `HALT`. -/
def compile (prog : node_t) (s : St) : St :=
  let s := g 0 (g JMP s)
  let s := c prog s
  let st := dict_find "main" IsFunc s
  if st ≠ 0 then
    { s with vm := padSet s.vm 1 0 ((((dictAt s.dict st).val - 1) % 256).toNat) }
  else
    { s with vm := padSet s.vm 0 0 HALT }

/-! ### Virtual machine -/

/-- Reading a stored byte back as a signed `char`. -/
def s8 (b : Nat) : Int := if b < 128 then (b : Int) else (b : Int) - 256

/-- `f1(a)`: `vm[a]` as a (sign-extended) int. -/
def f1 (vm : List Nat) (a : Nat) : Int := s8 (vmAt vm a)

/-- `f2(a)`: `(f1(a+1) << 8) | fu(a)` — signed high byte, unsigned low. -/
def f2 (vm : List Nat) (a : Nat) : Int := s8 (vmAt vm (a + 1)) * 256 + (vmAt vm a : Int)

/-- `f4(a)`: signed top byte, unsigned lower three, little-endian. -/
def f4 (vm : List Nat) (a : Nat) : Int :=
  s8 (vmAt vm (a + 3)) * 2 ^ 24 + (vmAt vm (a + 2) : Int) * 2 ^ 16
    + (vmAt vm (a + 1) : Int) * 2 ^ 8 + (vmAt vm a : Int)

/-- The machine state of `run`: program counter, operand stack (head is
`TOS`), return stack, and the symbol table whose `val` fields hold the
variable slots. -/
structure Config where
  pc : Int
  st : List Int
  rst : List Int
  dict : List dict_t
deriving DecidableEq, Repr

/-- Result of one dispatch: fall through to `again`, leave `run`, or an
access the C source leaves undefined (out-of-bounds index or stack
underflow), on which the model gets stuck. -/
inductive StepRes where
  | next (cfg : Config)
  | halt (cfg : Config)
  | stuck
deriving DecidableEq, Repr

/-- Pop-two-push-one arithmetic/comparison dispatch (`NOS op= TOS; --sp`). -/
def binStep (p : Nat) (cfg : Config) (f : Int → Int → Int) : StepRes :=
  match cfg.st with
  | t :: n :: r => .next { cfg with pc := (p : Int) + 1, st := f n t :: r }
  | _ => .stuck

/-- One dispatch of `run`'s `switch (f1(pc++))`.  A byte that matches no
case leaves the `switch` and falls off the end of `run` in the C source,
so it halts. -/
def step (vm : List Nat) (cfg : Config) : StepRes :=
  if cfg.pc < 0 then .stuck else
  let p := cfg.pc.toNat
  let op := vmAt vm p
  if op = HALT then .halt { cfg with pc := (p : Int) + 1 }
  else if op = FETCH then
    let i := f2 vm (p + 1)
    if i < 0 then .stuck
    else .next { cfg with pc := (p : Int) + 3, st := (dictAt cfg.dict i.toNat).val :: cfg.st }
  else if op = STORE then
    match cfg.st with
    | [] => .stuck
    | t :: _ =>
      let i := f2 vm (p + 1)
      if i < 0 then .stuck
      else .next { cfg with
                     pc := (p : Int) + 3
                     dict := padSet cfg.dict i.toNat dict0
                       { dictAt cfg.dict i.toNat with val := t } }
  else if op = LIT1 then
    .next { cfg with pc := (p : Int) + 2, st := f1 vm (p + 1) :: cfg.st }
  else if op = LIT2 then
    .next { cfg with pc := (p : Int) + 3, st := f2 vm (p + 1) :: cfg.st }
  else if op = LIT then
    .next { cfg with pc := (p : Int) + 5, st := f4 vm (p + 1) :: cfg.st }
  else if op = IDROP then
    match cfg.st with
    | [] => .stuck
    | _ :: r => .next { cfg with pc := (p : Int) + 1, st := r }
  else if op = IADD then binStep p cfg (fun n t => n + t)
  else if op = ISUB then binStep p cfg (fun n t => n - t)
  else if op = IMUL then binStep p cfg (fun n t => n * t)
  else if op = IDIV then binStep p cfg (fun n t => Int.tdiv n t)
  else if op = ILT then binStep p cfg (fun n t => if n < t then 1 else 0)
  else if op = IGT then binStep p cfg (fun n t => if n > t then 1 else 0)
  else if op = JZ then
    match cfg.st with
    | [] => .stuck
    | z :: r =>
      if z = 0 then .next { cfg with pc := ((p : Int) + 1) + f1 vm (p + 1), st := r }
      else .next { cfg with pc := (p : Int) + 2, st := r }
  else if op = JNZ then
    match cfg.st with
    | [] => .stuck
    | z :: r =>
      if z ≠ 0 then .next { cfg with pc := ((p : Int) + 1) + f1 vm (p + 1), st := r }
      else .next { cfg with pc := (p : Int) + 2, st := r }
  else if op = JMP then
    .next { cfg with pc := ((p : Int) + 1) + f1 vm (p + 1) }
  else if op = ICALL then
    let i := f2 vm (p + 1)
    if i < 0 then .stuck
    else .next { cfg with
                   pc := (dictAt cfg.dict i.toNat).val
                   rst := ((p : Int) + 3) :: cfg.rst }
  else if op = IRET then
    match cfg.rst with
    | r :: rest => .next { cfg with pc := r, rst := rest }
    | [] => .halt { cfg with pc := (p : Int) + 1 }
  else .halt { cfg with pc := (p : Int) + 1 }

/-- Outcome of a bounded run. -/
inductive RunRes where
  | running (cfg : Config)
  | halted (cfg : Config)
  | stuckR
deriving DecidableEq, Repr

/-- Iterate `step` for at most `n` dispatches. -/
def runN (vm : List Nat) : Nat → Config → RunRes
  | 0, cfg => .running cfg
  | n + 1, cfg =>
    match step vm cfg with
    | .next cfg' => runN vm n cfg'
    | .halt cfg' => .halted cfg'
    | .stuck => .stuckR

/-- `run(0)` starts with `pc = 0`, empty stacks, and the symbol table left
by compilation. -/
def initConfig (s : St) : Config :=
  { pc := 0, st := [], rst := [], dict := s.dict }

/-- The driver (`main`): tokenize, parse (`program()`), lower (`compile()`),
then `run(0)`; returns the post-compilation state and the run outcome. -/
def runProgram (fuel vfuel : Nat) (src : String) : Except Err (St × RunRes) :=
  match tokenizeStr fuel src with
  | .error e => .error e
  | .ok ts =>
    match program fuel (initSt ts) with
    | .error (e, _) => .error e
    | .ok (prog, s) =>
      let s := compile prog s
      .ok (s, runN s.vm vfuel (initConfig s))

/-! ### Concrete pipeline of the sample program `void main() { a = 1 + 2 * 3; }` -/

/-- Sample source S1 of the spec. -/
def srcS1 : String := "void main() \x7b a = 1 + 2 * 3; \x7d"

/-- Its token stream. -/
def toksS1 : List Tok :=
  [.VOID_SYM, .FUNC "main", .LBRA, .ID "a", .EQUAL, .INT 1, .PLUS, .INT 2,
   .STAR, .INT 3, .SEMI, .RBRA, .EOI]

/-- The symbol table after `main` is entered. -/
def dictM : List dict_t := [dict0, ⟨IsFunc, 0, "main"⟩]

/-- The symbol table after `a` is entered. -/
def dictMA : List dict_t := [dict0, ⟨IsFunc, 0, "main"⟩, ⟨IsVar, 0, "a"⟩]

/-- The AST of S1: note the left-heavy `(1 + 2) * 3`. -/
def astS1 : node_t :=
  .mk PROG (.mk FUNC_DEF (.mk SEQ (.mk EMPTY .nil .nil .nil 0)
    (.mk EXPR (.mk SET (.mk VAR .nil .nil .nil 2)
      (.mk MUL (.mk ADD (.mk CST .nil .nil .nil 1) (.mk CST .nil .nil .nil 2) .nil 0)
        (.mk CST .nil .nil .nil 3) .nil 0) .nil 0) .nil .nil 0) .nil 0) .nil .nil 1) .nil .nil 0

/-- The compiler state after parsing S1. -/
def stS1 : St := ⟨[.EOI], 12, 2, dictMA, [], 0⟩

/-- The compiler state after lowering S1. -/
def compiledS1 : St :=
  ⟨[.EOI], 12, 2, [dict0, ⟨IsFunc, 2, "main"⟩, ⟨IsVar, 0, "a"⟩],
   [15, 1, 3, 1, 3, 2, 7, 3, 3, 9, 2, 2, 0, 6, 17, 0], 16⟩

/-- The final machine state after running S1: `a = 9`, both stacks empty. -/
def finalS1 : Config :=
  ⟨15, [], [], [dict0, ⟨IsFunc, 2, "main"⟩, ⟨IsVar, 9, "a"⟩]⟩

/-! ### Objects of the jump-overflow example program -/

/-- The AST of the assignment statement `nm = v;` for slot `i`. -/
def stmtNode (i v : Nat) : node_t :=
  .mk EXPR (.mk SET (.mk VAR .nil .nil .nil (i : Int))
    (.mk CST .nil .nil .nil (v : Int)) .nil 0) .nil .nil 0

/-- `n` further `SEQ` links of that statement, folded leftwards as the
block loop does. -/
def seqExt (i v : Nat) : node_t → Nat → node_t
  | x, 0 => x
  | x, n + 1 => seqExt i v (.mk SEQ x (stmtNode i v) .nil 0) n

/-- The token stream of `n` copies of `nm = v;`. -/
def repToks (nm : String) (v : Nat) : Nat → List Tok
  | 0 => []
  | n + 1 => .ID nm :: .EQUAL :: .INT v :: .SEMI :: repToks nm v n

/-- Counterexample source C1-overflow program: a `while (0)` whose body
compiles to 255 bytes, so the patched `JZ` displacement `258` wraps to `2`. -/
def src6 : String :=
  "void main() \x7b while (0) \x7b " ++
  String.join (List.replicate 39 "a = 1; ") ++
  String.join (List.replicate 3 "b = 300; ") ++ "\x7d \x7d"

/-- Its token stream. -/
def toks6 : List Tok :=
  [.VOID_SYM, .FUNC "main", .LBRA, .WHILE_SYM, .LPAR, .INT 0, .RPAR, .LBRA]
  ++ repToks "a" 1 39 ++ repToks "b" 300 3 ++ [.RBRA, .RBRA, .EOI]

/-- The symbol table after `a` and `b` are entered. -/
def dictMAB : List dict_t :=
  [dict0, ⟨IsFunc, 0, "main"⟩, ⟨IsVar, 0, "a"⟩, ⟨IsVar, 0, "b"⟩]

/-- Tokens of the trailing `b = 300;` statements. -/
def tB : List Tok := repToks "b" 300 3 ++ [.RBRA, .RBRA, .EOI]

/-- Tokens of the loop body from the `n`-th `a = 1;` statement on. -/
def tA (n : Nat) : List Tok := repToks "a" 1 n ++ tB

/-- The `SEQ` chain of the 39 `a = 1;` statements. -/
def seqA : node_t :=
  seqExt 2 1 (.mk SEQ (.mk EMPTY .nil .nil .nil 0) (stmtNode 2 1) .nil 0) 38

/-- The full loop-body `SEQ` chain. -/
def body6 : node_t := seqExt 3 300 (.mk SEQ seqA (stmtNode 3 300) .nil 0) 2

/-- The program AST. -/
def ast6 : node_t :=
  .mk PROG (.mk FUNC_DEF (.mk SEQ (.mk EMPTY .nil .nil .nil 0)
    (.mk WHILE (.mk CST .nil .nil .nil 0) body6 .nil 0) .nil 0) .nil .nil 1) .nil .nil 0

/-- The emitted byte code: prologue, loop head, 39 + 3 assignment
statements, loop back-jump, `IRET`, `HALT`. -/
def vm6 : List Nat :=
  [15, 1, 3, 0, 13, 2] ++ (List.replicate 39 [3, 1, 2, 2, 0, 6]).flatten
  ++ (List.replicate 3 [4, 44, 1, 2, 3, 0, 6]).flatten ++ [15, 252, 17, 0]

/-- The compiler state after lowering: note the wrapped offset byte
`vm6[5] = 2` (the true displacement is `258`). -/
def compiled6 : St :=
  ⟨[.EOI], 217, 3, [dict0, ⟨IsFunc, 2, "main"⟩, ⟨IsVar, 0, "a"⟩, ⟨IsVar, 0, "b"⟩],
   vm6, 265⟩

/-- The final machine state: `HALT` at 10 was executed with `[0]` still on
the operand stack. -/
def final6 : Config :=
  ⟨11, [0], [], [dict0, ⟨IsFunc, 2, "main"⟩, ⟨IsVar, 0, "a"⟩, ⟨IsVar, 0, "b"⟩]⟩

/-- `Emits s s'`: the code generator moved from `s` to `s'` by appending
and patching at offsets at or above `s.here` only. -/
def Emits (s s' : St) : Prop :=
  s.here ≤ s'.here ∧ ∀ p, p < s.here → vmAt s'.vm p = vmAt s.vm p

/-- `PreservesVals m`: running `m` never changes any symbol's `val` slot. -/
def PreservesVals {α : Type} (m : PM α) : Prop :=
  ∀ s a s', m s = .ok (a, s') → ∀ i, (dictAt s'.dict i).val = (dictAt s.dict i).val

/-! ### Basic lemmas about the embedding -/

theorem PM_bind_def {α β : Type} (m : PM α) (f : α → PM β) (s : St) :
    (m >>= f) s = match m s with | .ok (a, s1) => f a s1 | .error e => .error e := rfl

theorem PM_pure_def {α : Type} (x : α) (s : St) : (pure x : PM α) s = .ok (x, s) := rfl

theorem parseNT_succ (f : Nat) (nt : NT) : parseNT (f + 1) nt = parseStep (parseNT f) nt := rfl

/-- Array-write/read: reading the written cell gives the new byte, any
other cell reads as before (missing cells read as the default, as in the
zero-initialised C array). -/
theorem getD_padSet {α : Type} (l : List α) (p q : Nat) (d b : α) :
    (padSet l p d b).getD q d = if q = p then b else l.getD q d := by
  induction l generalizing p q with
  | nil =>
    induction p generalizing q with
    | zero => cases q <;> simp [padSet]
    | succ p ih =>
      cases q with
      | zero => simp [padSet]
      | succ q => simpa [padSet] using ih q
  | cons x xs ih =>
    cases p with
    | zero => cases q <;> simp [padSet]
    | succ p =>
      cases q with
      | zero => simp [padSet]
      | succ q => simpa [padSet] using ih p q

theorem vmAt_padSet (v : List Nat) (p q b : Nat) :
    vmAt (padSet v p 0 b) q = if q = p then b else vmAt v q := by
  simpa [vmAt] using getD_padSet v p q 0 b

theorem dictAt_padSet (d : List dict_t) (j i : Nat) (e : dict_t) :
    dictAt (padSet d j dict0 e) i = if i = j then e else dictAt d i := by
  simpa [dictAt] using getD_padSet d j i dict0 e

/-- A `char` holding `x % 256` reads back as `x` whenever `x` fits in a
signed byte. -/
theorem s8_emod (x : Int) (h1 : -128 ≤ x) (h2 : x ≤ 127) :
    s8 ((x % 256).toNat) = x := by
  have h3 : (0 : Int) ≤ x % 256 := Int.emod_nonneg x (by norm_num)
  have hb : (((x % 256).toNat : Int)) = x % 256 := Int.toNat_of_nonneg h3
  unfold s8
  split
  · omega
  · omega

/-! ### Claim theorems -/

/-- C1: `hole` reserves the byte at `here`; `patch`ing a hole at offset
`s` with target `t` such that `t − s` fits in a signed byte stores `t − s`
in `vm[s]` (read back by `s8`); a taken `JMP`/`JZ`/`JNZ` whose offset byte
sits at `s` (opcode at `s − 1`) sets the program counter to exactly `t`
(the displacement is applied at the offset byte's own position); a
not-taken `JZ`/`JNZ` advances to `s + 1`, one byte past the offset byte;
and `JZ`/`JNZ` pop the condition in both cases. -/
theorem C1_patch_and_jump_semantics :
    (∀ s : St, hole s = (s.here, { s with here := s.here + 1 })) ∧
    (∀ (src dst : Nat) (s : St), -128 ≤ (dst : Int) - (src : Int) →
      (dst : Int) - (src : Int) ≤ 127 →
      s8 (vmAt (fix src dst s).vm src) = (dst : Int) - (src : Int)) ∧
    (∀ (vm : List Nat) (cfg : Config) (p : Nat) (t : Int),
      cfg.pc = (p : Int) → vmAt vm p = JMP →
      s8 (vmAt vm (p + 1)) = t - ((p : Int) + 1) →
      step vm cfg = .next { cfg with pc := t }) ∧
    (∀ (vm : List Nat) (cfg : Config) (p : Nat) (t : Int) (z : Int) (r : List Int),
      cfg.pc = (p : Int) → vmAt vm p = JZ → cfg.st = z :: r →
      s8 (vmAt vm (p + 1)) = t - ((p : Int) + 1) →
      step vm cfg = .next { cfg with pc := if z = 0 then t else (p : Int) + 2, st := r }) ∧
    (∀ (vm : List Nat) (cfg : Config) (p : Nat) (t : Int) (z : Int) (r : List Int),
      cfg.pc = (p : Int) → vmAt vm p = JNZ → cfg.st = z :: r →
      s8 (vmAt vm (p + 1)) = t - ((p : Int) + 1) →
      step vm cfg = .next { cfg with pc := if z ≠ 0 then t else (p : Int) + 2, st := r }) := by
  refine ⟨fun s => rfl, ?_, ?_, ?_, ?_⟩
  · intro src dst s h1 h2
    show s8 (vmAt (padSet s.vm src 0 _) src) = _
    rw [vmAt_padSet]
    simpa using s8_emod _ h1 h2
  · intro vm cfg p t hpc hop hs8
    obtain ⟨pc, stk, rst, dict⟩ := cfg
    simp only [Config.pc] at hpc
    subst hpc
    simp [step, f1, hop, hs8, HALT, FETCH, STORE, LIT1, LIT2, LIT, IDROP, IADD, ISUB,
      IMUL, IDIV, ILT, IGT, JZ, JNZ, JMP, ICALL, IRET]
  · intro vm cfg p t z r hpc hop hst hs8
    obtain ⟨pc, stk, rst, dict⟩ := cfg
    simp only [Config.pc] at hpc
    simp only [Config.st] at hst
    subst hpc
    subst hst
    by_cases hz : z = 0 <;>
      simp [step, f1, hop, hs8, hz, HALT, FETCH, STORE, LIT1, LIT2, LIT, IDROP, IADD,
        ISUB, IMUL, IDIV, ILT, IGT, JZ, JNZ, JMP, ICALL, IRET]
  · intro vm cfg p t z r hpc hop hst hs8
    obtain ⟨pc, stk, rst, dict⟩ := cfg
    simp only [Config.pc] at hpc
    simp only [Config.st] at hst
    subst hpc
    subst hst
    by_cases hz : z = 0 <;>
      simp [step, f1, hop, hs8, hz, HALT, FETCH, STORE, LIT1, LIT2, LIT, IDROP, IADD,
        ISUB, IMUL, IDIV, ILT, IGT, JZ, JNZ, JMP, ICALL, IRET]

/-- Witness for C1 at concrete inputs: patching offset 3 with target 10,
a `JMP` at 0 with offset byte 5 landing at 6, a taken `JZ` (condition 0)
and a not-taken `JNZ` (condition 0), both popping. -/
theorem C1_patch_and_jump_semantics_witness :
    s8 (vmAt (fix 3 10 (initSt [])).vm 3) = 7 ∧
    step [15, 5] ⟨0, [], [], []⟩ = .next ⟨6, [], [], []⟩ ∧
    step [13, 4] ⟨0, [0], [], []⟩ = .next ⟨5, [], [], []⟩ ∧
    step [14, 4] ⟨0, [0], [], []⟩ = .next ⟨2, [], [], []⟩ := by
  refine ⟨?_, ?_, ?_, ?_⟩
  · exact C1_patch_and_jump_semantics.2.1 3 10 (initSt []) (by decide) (by decide)
  · exact C1_patch_and_jump_semantics.2.2.1 [15, 5] ⟨0, [], [], []⟩ 0 6 rfl (by decide)
      (by decide)
  · have h := C1_patch_and_jump_semantics.2.2.2.1 [13, 4] ⟨0, [0], [], []⟩ 0 5 0 []
      rfl (by decide) rfl (by decide)
    simpa using h
  · have h := C1_patch_and_jump_semantics.2.2.2.2 [14, 4] ⟨0, [0], [], []⟩ 0 5 0 []
      rfl (by decide) rfl (by decide)
    simpa using h

/-- C4: executing `STORE i` writes the current top of the operand stack
into `symbol[i].value` and leaves the operand stack entirely unchanged
(nothing is popped — the conclusion's configuration keeps `st` as it was),
mutating no other symbol entry; this is why a `SET` expression leaves its
assigned value on the stack as the expression's result. -/
theorem C4_store_keeps_stack (vm : List Nat) (cfg : Config) (p i : Nat) (t : Int)
    (r : List Int) (hpc : cfg.pc = (p : Int)) (hop : vmAt vm p = STORE)
    (hst : cfg.st = t :: r) (hidx : f2 vm (p + 1) = (i : Int)) :
    step vm cfg = .next { cfg with
      pc := (p : Int) + 3
      dict := padSet cfg.dict i dict0 { dictAt cfg.dict i with val := t } } ∧
    (∀ cfg', step vm cfg = .next cfg' → cfg'.st = cfg.st ∧ cfg'.rst = cfg.rst) ∧
    (dictAt (padSet cfg.dict i dict0 { dictAt cfg.dict i with val := t }) i).val = t ∧
    (∀ j, j ≠ i → dictAt (padSet cfg.dict i dict0 { dictAt cfg.dict i with val := t }) j
      = dictAt cfg.dict j) := by
  obtain ⟨pc, stk, rst, dict⟩ := cfg
  simp only [Config.pc] at hpc
  simp only [Config.st] at hst
  subst hpc
  subst hst
  have hmain : step vm ⟨(p : Int), t :: r, rst, dict⟩ = .next
      { pc := (p : Int) + 3, st := t :: r, rst := rst,
        dict := padSet dict i dict0 { dictAt dict i with val := t } } := by
    have hp : ¬((p : Int) < 0) := by omega
    have hi : ¬((i : Int) < 0) := by omega
    simp [step, hop, hidx, hp, hi, HALT, FETCH, STORE, LIT1, LIT2, LIT, IDROP, IADD,
      ISUB, IMUL, IDIV, ILT, IGT, JZ, JNZ, JMP, ICALL, IRET]
  refine ⟨hmain, ?_, ?_, ?_⟩
  · intro cfg' h
    rw [hmain] at h
    cases h
    exact ⟨rfl, rfl⟩
  · simp [dictAt_padSet]
  · intro j hj
    simp [dictAt_padSet, hj]

/-- Witness for C4: a `STORE 1` at pc 0 with stack `[42]` writes 42 into
entry 1 and keeps the stack. -/
theorem C4_store_keeps_stack_witness :
    step [2, 1, 0] ⟨0, [42], [], [dict0, dict0]⟩ =
      .next ⟨3, [42], [], [dict0, { dict0 with val := 42 }]⟩ := by
  have h := (C4_store_keeps_stack [2, 1, 0] ⟨0, [42], [], [dict0, dict0]⟩ 0 1 42 []
    rfl (by decide) rfl (by decide)).1
  simpa [padSet, dictAt, dict0] using h

/-- C3: for a `CST` node with non-negative value `v`, the generator emits
`LIT1` plus one byte equal to `v` exactly when `v ≤ 127`; `LIT2` plus two
little-endian bytes reconstructing `v` exactly when `128 ≤ v ≤ 32767`; and
otherwise `LIT` plus four little-endian bytes reconstructing `v mod 2^32`
— the shortest form whose range contains `v`, with the tier thresholds at
128 and 32768. -/
theorem C3_cst_literal_tiers (o1 o2 o3 : node_t) (v : Int) (s : St) (hv : 0 ≤ v) :
    (v ≤ 127 →
      (c (.mk CST o1 o2 o3 v) s).here = s.here + 2 ∧
      vmAt (c (.mk CST o1 o2 o3 v) s).vm s.here = LIT1 ∧
      (vmAt (c (.mk CST o1 o2 o3 v) s).vm (s.here + 1) : Int) = v) ∧
    (128 ≤ v → v ≤ 32767 →
      (c (.mk CST o1 o2 o3 v) s).here = s.here + 3 ∧
      vmAt (c (.mk CST o1 o2 o3 v) s).vm s.here = LIT2 ∧
      (vmAt (c (.mk CST o1 o2 o3 v) s).vm (s.here + 1) : Int)
        + 256 * (vmAt (c (.mk CST o1 o2 o3 v) s).vm (s.here + 2) : Int) = v) ∧
    (32768 ≤ v →
      (c (.mk CST o1 o2 o3 v) s).here = s.here + 5 ∧
      vmAt (c (.mk CST o1 o2 o3 v) s).vm s.here = LIT ∧
      (vmAt (c (.mk CST o1 o2 o3 v) s).vm (s.here + 1) : Int)
        + 256 * (vmAt (c (.mk CST o1 o2 o3 v) s).vm (s.here + 2) : Int)
        + 65536 * (vmAt (c (.mk CST o1 o2 o3 v) s).vm (s.here + 3) : Int)
        + 16777216 * (vmAt (c (.mk CST o1 o2 o3 v) s).vm (s.here + 4) : Int)
        = v % 4294967296) := by
  have h1 : (0 : Int) ≤ v % 256 := Int.emod_nonneg v (by norm_num)
  have h2 : (0 : Int) ≤ v / 256 % 256 := Int.emod_nonneg _ (by norm_num)
  have h3 : (0 : Int) ≤ v / 256 / 256 % 256 := Int.emod_nonneg _ (by norm_num)
  have h4 : (0 : Int) ≤ v / 256 / 256 / 256 % 256 := Int.emod_nonneg _ (by norm_num)
  refine ⟨?_, ?_, ?_⟩
  · intro h127
    have hbranch : c (.mk CST o1 o2 o3 v) s = g v (g LIT1 s) := by
      show (if CST = VAR then _ else _) = _
      rw [if_neg (by decide), if_pos rfl, if_pos ⟨hv, h127⟩]
    rw [hbranch]
    refine ⟨by simp [g], ?_, ?_⟩
    · simp [g, vmAt_padSet, LIT1]
    · simp [g, vmAt_padSet]
      omega
  · intro h128 h32767
    have hbranch : c (.mk CST o1 o2 o3 v) s = g2 v (g LIT2 s) := by
      show (if CST = VAR then _ else _) = _
      rw [if_neg (by decide), if_pos rfl, if_neg (by omega), if_pos ⟨h128, h32767⟩]
    rw [hbranch]
    refine ⟨by simp [g2, g], ?_, ?_⟩
    · simp [g2, g, vmAt_padSet, LIT2]
      omega
    · simp [g2, g, vmAt_padSet]
      omega
  · intro h32768
    have hbranch : c (.mk CST o1 o2 o3 v) s = g4 v (g LIT s) := by
      show (if CST = VAR then _ else _) = _
      rw [if_neg (by decide), if_pos rfl, if_neg (by omega), if_neg (by omega)]
    rw [hbranch]
    refine ⟨by simp [g4, g], ?_, ?_⟩
    · simp [g4, g, vmAt_padSet, LIT]
      split_ifs <;> omega
    · simp [g4, g, vmAt_padSet]
      omega

/-! ### Emission stability: lowering only appends at `here` and patches
holes it reserved itself, so bytes below the starting `here` are frozen. -/

theorem emits_refl (s : St) : Emits s s := ⟨le_refl _, fun _ _ => rfl⟩

theorem emits_trans {s t u : St} (h1 : Emits s t) (h2 : Emits t u) : Emits s u :=
  ⟨le_trans h1.1 h2.1, fun p hp => (h2.2 p (lt_of_lt_of_le hp h1.1)).trans (h1.2 p hp)⟩

theorem emits_g {s t : St} (b : Int) (h : Emits s t) : Emits s (g b t) := by
  refine emits_trans h ⟨by simp [g], fun p hp => ?_⟩
  simp [g, vmAt_padSet]
  omega

theorem emits_g2 {s t : St} (b : Int) (h : Emits s t) : Emits s (g2 b t) :=
  emits_g _ (emits_g _ h)

theorem emits_g4 {s t : St} (b : Int) (h : Emits s t) : Emits s (g4 b t) :=
  emits_g _ (emits_g _ (emits_g _ (emits_g _ h)))

theorem emits_hole {s t : St} (h : Emits s t) : Emits s (hole t).2 :=
  emits_trans h ⟨by simp [hole], fun p hp => rfl⟩

theorem emits_fix {s t : St} (src dst : Nat) (h : Emits s t) (hsrc : s.here ≤ src) :
    Emits s (fix src dst t) := by
  refine ⟨by simpa [fix] using h.1, fun p hp => ?_⟩
  have : vmAt (fix src dst t).vm p = vmAt t.vm p := by
    simp [fix, vmAt_padSet]
    omega
  rw [this]
  exact h.2 p hp

theorem emits_setDictVal {s t : St} (i v : Int) (h : Emits s t) :
    Emits s (setDictVal i v t) := by
  unfold setDictVal
  split
  · exact h
  · exact emits_trans h ⟨le_refl _, fun p hp => rfl⟩

/-- Lowering any node only appends at `here` (and patches its own holes):
`here` never decreases and every byte below the starting `here` is
preserved. -/
theorem c_emits (x : node_t) : ∀ s : St, Emits s (c x s) := by
  induction x with
  | nil => intro s; exact emits_refl s
  | mk k o1 o2 o3 v ih1 ih2 ih3 =>
    intro s
    show Emits s (if k = VAR then _ else _)
    by_cases h1 : k = VAR
    · rw [if_pos h1]; exact emits_g2 _ (emits_g _ (emits_refl s))
    rw [if_neg h1]
    by_cases h2 : k = CST
    · rw [if_pos h2]
      split
      · exact emits_g _ (emits_g _ (emits_refl s))
      split
      · exact emits_g2 _ (emits_g _ (emits_refl s))
      · exact emits_g4 _ (emits_g _ (emits_refl s))
    rw [if_neg h2]
    by_cases h3 : k = ADD
    · rw [if_pos h3]; exact emits_g _ (emits_trans (ih1 s) (ih2 _))
    rw [if_neg h3]
    by_cases h4 : k = MUL
    · rw [if_pos h4]; exact emits_g _ (emits_trans (ih1 s) (ih2 _))
    rw [if_neg h4]
    by_cases h5 : k = SUB
    · rw [if_pos h5]; exact emits_g _ (emits_trans (ih1 s) (ih2 _))
    rw [if_neg h5]
    by_cases h6 : k = DIV
    · rw [if_pos h6]; exact emits_g _ (emits_trans (ih1 s) (ih2 _))
    rw [if_neg h6]
    by_cases h7 : k = LT
    · rw [if_pos h7]; exact emits_g _ (emits_trans (ih1 s) (ih2 _))
    rw [if_neg h7]
    by_cases h8 : k = GT
    · rw [if_pos h8]; exact emits_g _ (emits_trans (ih1 s) (ih2 _))
    rw [if_neg h8]
    by_cases h9 : k = SET
    · rw [if_pos h9]; exact emits_g2 _ (emits_g _ (ih2 s))
    rw [if_neg h9]
    by_cases h10 : k = IF1
    · rw [if_pos h10]
      refine emits_fix _ _ (emits_trans (emits_hole (emits_g _ (ih1 s))) (ih2 _)) ?_
      exact le_trans (ih1 s).1 (by simp [g, hole])
    rw [if_neg h10]
    by_cases h11 : k = IF2
    · rw [if_pos h11]
      refine emits_fix _ _ (emits_trans (emits_fix _ _
        (emits_hole (emits_g _ (emits_trans (emits_hole (emits_g _ (ih1 s))) (ih2 _))))
        (le_trans (ih1 s).1 (by simp [g, hole]))) (ih3 _)) ?_
      have a1 : s.here ≤ (c o1 s).here := (ih1 s).1
      have a3 : ((hole (g (JZ : Nat) (c o1 s))).2).here
          ≤ (c o2 ((hole (g (JZ : Nat) (c o1 s))).2)).here := (ih2 _).1
      simp only [hole, g] at a3 ⊢
      omega
    rw [if_neg h11]
    by_cases h12 : k = WHILE
    · rw [if_pos h12]
      refine emits_fix _ _ (emits_fix _ _
        (emits_hole (emits_g _ (emits_trans (emits_hole (emits_g _ (ih1 s))) (ih2 _)))) ?_) ?_
      · have a1 : s.here ≤ (c o1 s).here := (ih1 s).1
        have a3 : ((hole (g (JZ : Nat) (c o1 s))).2).here
            ≤ (c o2 ((hole (g (JZ : Nat) (c o1 s))).2)).here := (ih2 _).1
        simp only [hole, g] at a3 ⊢
        omega
      · exact le_trans (ih1 s).1 (by simp [g, hole])
    rw [if_neg h12]
    by_cases h13 : k = DO
    · rw [if_pos h13]
      refine emits_fix _ _ (emits_hole (emits_g _ (emits_trans (ih1 s) (ih2 _)))) ?_
      exact le_trans (ih1 s).1 (le_trans (ih2 _).1 (by simp [g, hole]))
    rw [if_neg h13]
    by_cases h14 : k = EMPTY
    · rw [if_pos h14]; exact emits_refl s
    rw [if_neg h14]
    by_cases h15 : k = SEQ
    · rw [if_pos h15]; exact emits_trans (ih1 s) (ih2 _)
    rw [if_neg h15]
    by_cases h16 : k = EXPR
    · rw [if_pos h16]; exact emits_g _ (ih1 s)
    rw [if_neg h16]
    by_cases h17 : k = PROG
    · rw [if_pos h17]; exact emits_g _ (ih1 s)
    rw [if_neg h17]
    by_cases h18 : k = RET
    · rw [if_pos h18]; exact emits_g _ (emits_refl s)
    rw [if_neg h18]
    by_cases h19 : k = FUNC_DEF
    · rw [if_pos h19]; exact emits_g _ (emits_trans (emits_setDictVal _ _ (emits_refl s)) (ih1 _))
    rw [if_neg h19]
    by_cases h20 : k = FUNC_CALL
    · rw [if_pos h20]; exact emits_g2 _ (emits_g _ (emits_refl s))
    rw [if_neg h20]
    exact emits_refl s

/-- C2: compilation emits the two-byte `JMP 0` prologue first; after
lowering, if `main` is found as a `Func` with recorded body offset `mv`
(and `mv − 1` fits in the unsigned range of a signed byte), the prologue's
offset byte `vm[1]` is patched to `mv − 1`, and the very first dispatch
from `pc = 0` jumps exactly to `mv` — the first instruction of `main`'s
body as recorded by `FUNC_DEF` lowering; if `main` is absent, `vm[0]` is
overwritten with `HALT` and the first dispatch halts immediately, with
stacks and symbol table untouched, executing no other opcode. -/
theorem C2_prologue_main_dispatch (prog : node_t) (s0 : St) (h0 : s0.here = 0) :
    (∀ m : Nat, dict_find "main" IsFunc (c prog (g 0 (g JMP s0))) = m → m ≠ 0 →
      1 ≤ (dictAt (c prog (g 0 (g JMP s0))).dict m).val →
      (dictAt (c prog (g 0 (g JMP s0))).dict m).val ≤ 128 →
      (vmAt (compile prog s0).vm 1 : Int) =
        (dictAt (c prog (g 0 (g JMP s0))).dict m).val - 1 ∧
      ∀ cfg : Config, cfg.pc = 0 →
        step (compile prog s0).vm cfg =
          .next { cfg with pc := (dictAt (c prog (g 0 (g JMP s0))).dict m).val }) ∧
    (dict_find "main" IsFunc (c prog (g 0 (g JMP s0))) = 0 →
      vmAt (compile prog s0).vm 0 = HALT ∧
      ∀ cfg : Config, cfg.pc = 0 →
        step (compile prog s0).vm cfg = .halt { cfg with pc := 1 }) := by
  have hpro0 : vmAt (g 0 (g JMP s0)).vm 0 = JMP := by
    simp [g, vmAt_padSet, h0, JMP]
  have hpro2 : (g 0 (g JMP s0)).here = 2 := by simp [g, h0]
  have hstab := c_emits prog (g 0 (g JMP s0))
  have hc0 : vmAt (c prog (g 0 (g JMP s0))).vm 0 = JMP := by
    rw [hstab.2 0 (by omega), hpro0]
  constructor
  · intro m hfind hm h1 h128
    set s1 := c prog (g 0 (g JMP s0)) with hs1
    set mv := (dictAt s1.dict m).val with hmv
    have hcomp : compile prog s0 =
        { s1 with vm := padSet s1.vm 1 0 (((mv - 1) % 256).toNat) } := by
      unfold compile
      dsimp only
      rw [← hs1, hfind, if_pos hm]
    have hb1 : vmAt (compile prog s0).vm 1 = ((mv - 1) % 256).toNat := by
      rw [hcomp]
      show vmAt (padSet s1.vm 1 0 _) 1 = _
      rw [vmAt_padSet, if_pos rfl]
    have hb0 : vmAt (compile prog s0).vm 0 = JMP := by
      rw [hcomp]
      show vmAt (padSet s1.vm 1 0 _) 0 = _
      rw [vmAt_padSet, if_neg (by omega)]
      exact hc0
    have hmod : ((mv - 1) % 256).toNat = (mv - 1).toNat := by
      have : mv - 1 < 256 := by omega
      have h' : (0 : Int) ≤ mv - 1 := by omega
      rw [Int.emod_eq_of_lt h' this]
    have hs8 : s8 (vmAt (compile prog s0).vm 1) = mv - 1 :=
      hb1 ▸ s8_emod (mv - 1) (by omega) (by omega)
    constructor
    · rw [hb1, hmod]
      omega
    · intro cfg hpc
      obtain ⟨pc, stk, rst, dict⟩ := cfg
      simp only [Config.pc] at hpc
      subst hpc
      have hstep : step (compile prog s0).vm ⟨(0 : Int), stk, rst, dict⟩ =
          .next ⟨((0 : Int) + 1) + f1 (compile prog s0).vm 1, stk, rst, dict⟩ := by
        simp [step, f1, hb0, HALT, FETCH, STORE, LIT1, LIT2, LIT, IDROP, IADD, ISUB,
          IMUL, IDIV, ILT, IGT, JZ, JNZ, JMP, ICALL, IRET]
      rw [hstep]
      have harith : ((0 : Int) + 1) + f1 (compile prog s0).vm 1 = mv := by
        rw [show f1 (compile prog s0).vm 1 = s8 (vmAt (compile prog s0).vm 1) from rfl,
          hs8]
        omega
      rw [harith]
  · intro hfind
    have hcomp : compile prog s0 =
        { c prog (g 0 (g JMP s0)) with
          vm := padSet (c prog (g 0 (g JMP s0))).vm 0 0 HALT } := by
      unfold compile
      dsimp only
      rw [hfind]
      simp
    have hb0 : vmAt (compile prog s0).vm 0 = HALT := by
      rw [hcomp]
      show vmAt (padSet _ 0 0 _) 0 = _
      rw [vmAt_padSet, if_pos rfl]
    constructor
    · exact hb0
    · intro cfg hpc
      obtain ⟨pc, stk, rst, dict⟩ := cfg
      simp only [Config.pc] at hpc
      subst hpc
      simp [step, hb0, HALT]

/-- Witness for C2: compiling the one-statement program
`void main() ;`-style AST `PROG(FUNC_DEF 1 EMPTY)` (entry 1 named `main`
in the symbol table) patches `vm[1]` to 1 and the first dispatch jumps to
offset 2, the body's first instruction; compiling `PROG(EMPTY)` with no
`main` entry halts at once. -/
theorem C2_prologue_main_dispatch_witness :
    (vmAt (compile (.mk PROG (.mk FUNC_DEF (.mk EMPTY .nil .nil .nil 0) .nil .nil 1)
        .nil .nil 0)
      { toks := [], nnodes := 0, last := 1, dict := [dict0, ⟨IsFunc, 0, "main"⟩],
        vm := [], here := 0 }).vm 1 : Int) = 1 ∧
    step (compile (.mk PROG (.mk FUNC_DEF (.mk EMPTY .nil .nil .nil 0) .nil .nil 1)
        .nil .nil 0)
      { toks := [], nnodes := 0, last := 1, dict := [dict0, ⟨IsFunc, 0, "main"⟩],
        vm := [], here := 0 }).vm ⟨0, [], [], []⟩ = .next ⟨2, [], [], []⟩ ∧
    vmAt (compile (.mk PROG (.mk EMPTY .nil .nil .nil 0) .nil .nil 0)
      (initSt [])).vm 0 = HALT ∧
    step (compile (.mk PROG (.mk EMPTY .nil .nil .nil 0) .nil .nil 0)
      (initSt [])).vm ⟨0, [], [], []⟩ = .halt ⟨1, [], [], []⟩ := by
  have h := C2_prologue_main_dispatch
    (.mk PROG (.mk FUNC_DEF (.mk EMPTY .nil .nil .nil 0) .nil .nil 1) .nil .nil 0)
    { toks := [], nnodes := 0, last := 1, dict := [dict0, ⟨IsFunc, 0, "main"⟩],
      vm := [], here := 0 } rfl
  have h2 := C2_prologue_main_dispatch
    (.mk PROG (.mk EMPTY .nil .nil .nil 0) .nil .nil 0) (initSt []) rfl
  have ha := h.1 1 (by decide) (by decide) (by decide) (by decide)
  have hb := h2.2 (by decide)
  have hval : (dictAt (c (.mk PROG
      (.mk FUNC_DEF (.mk EMPTY .nil .nil .nil 0) .nil .nil 1) .nil .nil 0)
      (g 0 (g JMP (⟨[], 0, 1, [dict0, ⟨IsFunc, 0, "main"⟩], [], 0⟩ : St)))).dict 1).val
      = 2 := by decide
  refine ⟨?_, ?_, hb.1, hb.2 _ rfl⟩
  · have h1 := ha.1
    rw [hval] at h1
    omega
  · have h2' := ha.2 ⟨0, [], [], []⟩ rfl
    rw [hval] at h2'
    exact h2'

/-- C7: parsing a call token `id();` whose `(name, Func)` pair is absent
fails with the fatal "not defined" diagnostic, and parsing a definition
`void id() …` whose `(name, Func)` pair is present fails with the fatal
"already defined" diagnostic; each error value models the one-line
diagnostic plus `exit(1)` of the source (no recovery), and in both cases
the symbol table is unmodified at the moment of exit (only the AST-pool
counter has moved, for the node allocated before the check). -/
theorem C7_function_resolution_errors (fuel : Nat) (s : St) (nm : String) :
    (∀ r, s.toks = .FUNC nm :: r → s.nnodes < MAX_NODES →
      dict_find nm IsFunc s = 0 →
      parseNT (fuel + 1) .stmt s =
        .error (.notDefined nm, { s with nnodes := s.nnodes + 1 }) ∧
      ∀ e s', parseNT (fuel + 1) .stmt s = .error (e, s') →
        s'.dict = s.dict ∧ s'.last = s.last) ∧
    (∀ r, s.toks = .VOID_SYM :: .FUNC nm :: r → s.nnodes < MAX_NODES →
      dict_find nm IsFunc s ≠ 0 →
      parseNT (fuel + 1) .stmt s =
        .error (.alreadyDefined nm, { s with toks := r, nnodes := s.nnodes + 1 }) ∧
      ∀ e s', parseNT (fuel + 1) .stmt s = .error (e, s') →
        s'.dict = s.dict ∧ s'.last = s.last) := by
  constructor
  · intro r hts hnn hfind
    have hmain : parseNT (fuel + 1) .stmt s =
        .error (.notDefined nm, { s with nnodes := s.nnodes + 1 }) := by
      rw [parseNT_succ fuel]
      have hnn' : ¬ (1000 ≤ s.nnodes) := by simp [MAX_NODES] at hnn; omega
      have hfind' : dict_find nm IsFunc
          (⟨.FUNC nm :: r, s.nnodes + 1, s.last, s.dict, s.vm, s.here⟩ : St) = 0 := hfind
      simp [parseStep, PM_bind_def, PM_pure_def, curSym, nextSymP, new_node, perr,
        hts, hnn', hfind', MAX_NODES]
    refine ⟨hmain, fun e s' h => ?_⟩
    rw [hmain] at h
    cases h
    exact ⟨rfl, rfl⟩
  · intro r hts hnn hfind
    have hmain : parseNT (fuel + 1) .stmt s =
        .error (.alreadyDefined nm, { s with toks := r, nnodes := s.nnodes + 1 }) := by
      rw [parseNT_succ fuel]
      have hnn' : ¬ (1000 ≤ s.nnodes) := by simp [MAX_NODES] at hnn; omega
      have hfind' : dict_find nm IsFunc
          (⟨r, s.nnodes + 1, s.last, s.dict, s.vm, s.here⟩ : St) ≠ 0 := hfind
      simp [parseStep, PM_bind_def, PM_pure_def, curSym, nextSymP, new_node, perr,
        hts, hnn', MAX_NODES, hfind']
    refine ⟨hmain, fun e s' h => ?_⟩
    rw [hmain] at h
    cases h
    exact ⟨rfl, rfl⟩

/-- Witness for C7: `f();` with an empty symbol table errors "not
defined"; `void f() { }` with `f` already a `Func` errors "already
defined". -/
theorem C7_function_resolution_errors_witness :
    parseNT 5 .stmt (initSt [.FUNC "f", .SEMI, .EOI]) =
      .error (.notDefined "f", { initSt [.FUNC "f", .SEMI, .EOI] with nnodes := 1 }) ∧
    parseNT 5 .stmt (⟨[.VOID_SYM, .FUNC "f", .LBRA, .RBRA, .EOI], 0, 1,
        [dict0, ⟨IsFunc, 0, "f"⟩], [], 0⟩ : St) =
      .error (.alreadyDefined "f",
        ⟨[.LBRA, .RBRA, .EOI], 1, 1, [dict0, ⟨IsFunc, 0, "f"⟩], [], 0⟩) := by
  constructor
  · exact ((C7_function_resolution_errors 4 (initSt [.FUNC "f", .SEMI, .EOI]) "f").1
      [.SEMI, .EOI] rfl (by decide) (by decide)).1
  · exact ((C7_function_resolution_errors 4 (⟨[.VOID_SYM, .FUNC "f", .LBRA, .RBRA, .EOI],
      0, 1, [dict0, ⟨IsFunc, 0, "f"⟩], [], 0⟩ : St) "f").2
      [.LBRA, .RBRA, .EOI] rfl (by decide) (by decide)).1


theorem pv_pure {α : Type} (x : α) : PreservesVals (pure x : PM α) := by
  intro s a s' h i
  cases h
  rfl

theorem pv_perr {α : Type} (e : Err) : PreservesVals (perr e : PM α) := by
  intro s a s' h i
  cases h

theorem pv_bind {α β : Type} {m : PM α} {f : α → PM β}
    (h1 : PreservesVals m) (h2 : ∀ a, PreservesVals (f a)) :
    PreservesVals (m >>= f) := by
  intro s a s' h i
  rw [PM_bind_def] at h
  cases hm : m s with
  | ok r =>
    obtain ⟨b, t⟩ := r
    rw [hm] at h
    exact (h2 b t a s' h i).trans (h1 s b t hm i)
  | error e =>
    rw [hm] at h
    cases h

theorem pv_curSym : PreservesVals curSym := by
  intro s a s' h i
  cases h
  rfl

theorem pv_nextSymP : PreservesVals nextSymP := by
  intro s a s' h i
  cases h
  rfl

theorem pv_new_node : PreservesVals new_node := by
  intro s a s' h i
  unfold new_node at h
  split at h
  · cases h
  · cases h
    rfl

theorem pv_expect_sym (p : Tok → Bool) : PreservesVals (expect_sym p) := by
  intro s a s' h i
  unfold expect_sym at h
  split at h
  · cases h
    rfl
  · cases h

theorem pv_dict_add (nm : String) (k : Nat) (s : St) (i : Nat) :
    (dictAt (dict_add nm k s).2.dict i).val = (dictAt s.dict i).val := by
  unfold dict_add
  dsimp only
  rw [dictAt_padSet]
  split
  · simp only [*]
  · rfl

theorem pv_resolveVar (nm : String) : PreservesVals (resolveVar nm) := by
  intro s a s' h i
  unfold resolveVar at h
  dsimp only at h
  split at h
  · cases h
    exact pv_dict_add nm IsVar s i
  · cases h
    rfl

theorem pv_funcFind (nm : String) :
    PreservesVals (fun s => .ok (dict_find nm IsFunc s, s) : PM Nat) := by
  intro s a s' h i
  cases h
  rfl

theorem pv_funcAdd (nm : String) :
    PreservesVals (fun s => .ok (dict_add nm IsFunc s) : PM Nat) := by
  intro s a s' h i
  cases h
  exact pv_dict_add nm IsFunc s i

theorem pv_parseStep (recur : NT → PM node_t)
    (hrec : ∀ nt, PreservesVals (recur nt)) (nt : NT) :
    PreservesVals (parseStep recur nt) := by
  cases nt with
  | term =>
    refine pv_bind pv_curSym ?_
    intro t
    cases t <;>
      first
        | exact hrec _
        | exact pv_bind pv_new_node (fun _ => pv_bind (pv_resolveVar _)
            (fun _ => pv_bind pv_nextSymP (fun _ => pv_pure _)))
        | exact pv_bind pv_new_node (fun _ => pv_bind pv_nextSymP (fun _ => pv_pure _))
  | sum => exact pv_bind (hrec _) (fun x => hrec _)
  | sumLoop x =>
    refine pv_bind pv_curSym ?_
    intro t
    cases mathop t with
    | some k => exact pv_bind pv_new_node (fun _ => pv_bind pv_nextSymP
        (fun _ => pv_bind (hrec _) (fun y => hrec _)))
    | none => exact pv_pure _
  | test =>
    refine pv_bind (hrec _) ?_
    intro x
    refine pv_bind pv_curSym ?_
    intro t
    split
    · exact pv_bind pv_nextSymP (fun _ => pv_bind (hrec _)
        (fun y => pv_bind pv_new_node (fun _ => pv_pure _)))
    split
    · exact pv_bind pv_nextSymP (fun _ => pv_bind (hrec _)
        (fun y => pv_bind pv_new_node (fun _ => pv_pure _)))
    · exact pv_pure _
  | expr =>
    refine pv_bind pv_curSym ?_
    intro t
    split
    · exact hrec _
    · refine pv_bind (hrec _) ?_
      intro x
      refine pv_bind pv_curSym ?_
      intro t'
      split
      · exact pv_bind pv_nextSymP (fun _ => pv_bind (hrec _)
          (fun rhs => pv_bind pv_new_node (fun _ => pv_pure _)))
      · exact pv_pure _
  | parenExpr =>
    exact pv_bind (pv_expect_sym _) (fun _ => pv_bind (hrec _)
      (fun x => pv_bind (pv_expect_sym _) (fun _ => pv_pure _)))
  | stmt =>
    refine pv_bind pv_curSym ?_
    intro t
    cases t with
    | IF_SYM =>
      refine pv_bind pv_new_node (fun _ => pv_bind pv_nextSymP
        (fun _ => pv_bind (hrec _) (fun cnd => pv_bind (hrec _)
        (fun th => pv_bind pv_curSym (fun t' => ?_)))))
      split
      · exact pv_bind pv_nextSymP (fun _ => pv_bind (hrec _) (fun el => pv_pure _))
      · exact pv_pure _
    | WHILE_SYM =>
      exact pv_bind pv_new_node (fun _ => pv_bind pv_nextSymP
        (fun _ => pv_bind (hrec _) (fun cnd => pv_bind (hrec _) (fun b => pv_pure _))))
    | FUNC nm =>
      refine pv_bind pv_new_node (fun _ => pv_bind (pv_funcFind nm) (fun v => ?_))
      split
      · exact pv_perr _
      · exact pv_bind pv_nextSymP (fun _ => pv_bind (pv_expect_sym _)
          (fun _ => pv_pure _))
    | RET_SYM =>
      exact pv_bind pv_nextSymP (fun _ => pv_bind (pv_expect_sym _)
        (fun _ => pv_bind pv_new_node (fun _ => pv_pure _)))
    | DO_SYM =>
      exact pv_bind pv_new_node (fun _ => pv_bind pv_nextSymP
        (fun _ => pv_bind (hrec _) (fun b => pv_bind (pv_expect_sym _)
        (fun _ => pv_bind (hrec _) (fun cnd => pv_bind (pv_expect_sym _)
        (fun _ => pv_pure _))))))
    | SEMI =>
      exact pv_bind pv_new_node (fun _ => pv_bind pv_nextSymP (fun _ => pv_pure _))
    | LBRA =>
      exact pv_bind pv_new_node (fun _ => pv_bind pv_nextSymP (fun _ => hrec _))
    | VOID_SYM =>
      refine pv_bind pv_nextSymP (fun _ => pv_bind pv_curSym (fun t' => ?_))
      cases t' with
      | FUNC nm =>
        refine pv_bind pv_nextSymP (fun _ => pv_bind pv_new_node
          (fun _ => pv_bind (pv_funcFind nm) (fun v => ?_)))
        split
        · exact pv_perr _
        · refine pv_bind (pv_funcAdd nm) (fun idx => pv_bind pv_curSym (fun t'' => ?_))
          split
          · exact pv_perr _
          · exact pv_bind (hrec _) (fun body => pv_pure _)
      | _ => exact pv_perr _
    | _ =>
      exact pv_bind (hrec _) (fun x => pv_bind pv_new_node
        (fun _ => pv_bind (pv_expect_sym _) (fun _ => pv_pure _)))
  | blockLoop x =>
    refine pv_bind pv_curSym ?_
    intro t
    split
    · exact pv_bind pv_nextSymP (fun _ => pv_pure _)
    · exact pv_bind pv_new_node (fun _ => pv_bind (hrec _) (fun y => hrec _))


theorem pv_parseNT (fuel : Nat) (nt : NT) : PreservesVals (parseNT fuel nt) := by
  induction fuel generalizing nt with
  | zero => exact pv_perr _
  | succ f ih => exact pv_parseStep _ ih nt

theorem pv_program (fuel : Nat) : PreservesVals (program fuel) :=
  pv_bind pv_new_node (fun _ => pv_bind (pv_parseNT fuel .stmt) (fun _ => pv_pure _))

/-- Any dispatch that is not a `STORE` writing index `i` leaves
`symbol[i].value` unchanged. -/
theorem step_dict_val_preserved (vm : List Nat) (cfg cfg' : Config) (i : Nat)
    (hstep : step vm cfg = .next cfg')
    (hcond : vmAt vm cfg.pc.toNat ≠ STORE ∨ f2 vm (cfg.pc.toNat + 1) ≠ (i : Int)) :
    (dictAt cfg'.dict i).val = (dictAt cfg.dict i).val := by
  obtain ⟨pc, stk, rst, dict⟩ := cfg
  simp only [Config.pc, Config.dict] at hcond ⊢
  by_cases hneg : pc < 0
  · unfold step at hstep
    rw [if_pos hneg] at hstep
    cases hstep
  by_cases hp0 : vmAt vm pc.toNat = HALT
  · unfold step at hstep
    rw [if_neg hneg, if_pos hp0] at hstep
    cases hstep
  by_cases hp1 : vmAt vm pc.toNat = FETCH
  · simp [step, HALT, FETCH, STORE, LIT1, LIT2, LIT, IDROP, IADD, ISUB, IMUL, IDIV, ILT, IGT, JZ, JNZ, JMP, ICALL, IRET, hneg, hp1] at hstep
    split at hstep
    · cases hstep
    · cases hstep; rfl
  by_cases hp2 : vmAt vm pc.toNat = STORE
  · rcases hcond with hc | hc
    · exact absurd hp2 hc
    cases stk with
    | nil => simp [step, HALT, FETCH, STORE, LIT1, LIT2, LIT, IDROP, IADD, ISUB, IMUL, IDIV, ILT, IGT, JZ, JNZ, JMP, ICALL, IRET, hneg, hp2] at hstep
    | cons t r =>
      simp [step, HALT, FETCH, STORE, LIT1, LIT2, LIT, IDROP, IADD, ISUB, IMUL, IDIV, ILT, IGT, JZ, JNZ, JMP, ICALL, IRET, hneg, hp2] at hstep
      split at hstep
      · cases hstep
      · cases hstep
        rw [dictAt_padSet]
        split
        · exfalso
          apply hc
          rename_i hge heq
          rw [heq]
          omega
        · rfl
  by_cases hp3 : vmAt vm pc.toNat = LIT1
  · simp [step, HALT, FETCH, STORE, LIT1, LIT2, LIT, IDROP, IADD, ISUB, IMUL, IDIV, ILT, IGT, JZ, JNZ, JMP, ICALL, IRET, hneg, hp3] at hstep
    cases hstep; rfl
  by_cases hp4 : vmAt vm pc.toNat = LIT2
  · simp [step, HALT, FETCH, STORE, LIT1, LIT2, LIT, IDROP, IADD, ISUB, IMUL, IDIV, ILT, IGT, JZ, JNZ, JMP, ICALL, IRET, hneg, hp4] at hstep
    cases hstep; rfl
  by_cases hp5 : vmAt vm pc.toNat = LIT
  · simp [step, HALT, FETCH, STORE, LIT1, LIT2, LIT, IDROP, IADD, ISUB, IMUL, IDIV, ILT, IGT, JZ, JNZ, JMP, ICALL, IRET, hneg, hp5] at hstep
    cases hstep; rfl
  by_cases hp6 : vmAt vm pc.toNat = IDROP
  · cases stk with
    | nil => simp [step, HALT, FETCH, STORE, LIT1, LIT2, LIT, IDROP, IADD, ISUB, IMUL, IDIV, ILT, IGT, JZ, JNZ, JMP, ICALL, IRET, hneg, hp6] at hstep
    | cons t r =>
      simp [step, HALT, FETCH, STORE, LIT1, LIT2, LIT, IDROP, IADD, ISUB, IMUL, IDIV, ILT, IGT, JZ, JNZ, JMP, ICALL, IRET, hneg, hp6] at hstep
      cases hstep; rfl
  by_cases hp7 : vmAt vm pc.toNat = IADD
  · cases stk with
    | nil => simp [step, HALT, FETCH, STORE, LIT1, LIT2, LIT, IDROP, IADD, ISUB, IMUL, IDIV, ILT, IGT, JZ, JNZ, JMP, ICALL, IRET, hneg, hp7, binStep] at hstep
    | cons t r =>
      cases r with
      | nil => simp [step, HALT, FETCH, STORE, LIT1, LIT2, LIT, IDROP, IADD, ISUB, IMUL, IDIV, ILT, IGT, JZ, JNZ, JMP, ICALL, IRET, hneg, hp7, binStep] at hstep
      | cons n r2 =>
        simp [step, HALT, FETCH, STORE, LIT1, LIT2, LIT, IDROP, IADD, ISUB, IMUL, IDIV, ILT, IGT, JZ, JNZ, JMP, ICALL, IRET, hneg, hp7, binStep] at hstep
        cases hstep; rfl
  by_cases hp8 : vmAt vm pc.toNat = ISUB
  · cases stk with
    | nil => simp [step, HALT, FETCH, STORE, LIT1, LIT2, LIT, IDROP, IADD, ISUB, IMUL, IDIV, ILT, IGT, JZ, JNZ, JMP, ICALL, IRET, hneg, hp8, binStep] at hstep
    | cons t r =>
      cases r with
      | nil => simp [step, HALT, FETCH, STORE, LIT1, LIT2, LIT, IDROP, IADD, ISUB, IMUL, IDIV, ILT, IGT, JZ, JNZ, JMP, ICALL, IRET, hneg, hp8, binStep] at hstep
      | cons n r2 =>
        simp [step, HALT, FETCH, STORE, LIT1, LIT2, LIT, IDROP, IADD, ISUB, IMUL, IDIV, ILT, IGT, JZ, JNZ, JMP, ICALL, IRET, hneg, hp8, binStep] at hstep
        cases hstep; rfl
  by_cases hp9 : vmAt vm pc.toNat = IMUL
  · cases stk with
    | nil => simp [step, HALT, FETCH, STORE, LIT1, LIT2, LIT, IDROP, IADD, ISUB, IMUL, IDIV, ILT, IGT, JZ, JNZ, JMP, ICALL, IRET, hneg, hp9, binStep] at hstep
    | cons t r =>
      cases r with
      | nil => simp [step, HALT, FETCH, STORE, LIT1, LIT2, LIT, IDROP, IADD, ISUB, IMUL, IDIV, ILT, IGT, JZ, JNZ, JMP, ICALL, IRET, hneg, hp9, binStep] at hstep
      | cons n r2 =>
        simp [step, HALT, FETCH, STORE, LIT1, LIT2, LIT, IDROP, IADD, ISUB, IMUL, IDIV, ILT, IGT, JZ, JNZ, JMP, ICALL, IRET, hneg, hp9, binStep] at hstep
        cases hstep; rfl
  by_cases hp10 : vmAt vm pc.toNat = IDIV
  · cases stk with
    | nil => simp [step, HALT, FETCH, STORE, LIT1, LIT2, LIT, IDROP, IADD, ISUB, IMUL, IDIV, ILT, IGT, JZ, JNZ, JMP, ICALL, IRET, hneg, hp10, binStep] at hstep
    | cons t r =>
      cases r with
      | nil => simp [step, HALT, FETCH, STORE, LIT1, LIT2, LIT, IDROP, IADD, ISUB, IMUL, IDIV, ILT, IGT, JZ, JNZ, JMP, ICALL, IRET, hneg, hp10, binStep] at hstep
      | cons n r2 =>
        simp [step, HALT, FETCH, STORE, LIT1, LIT2, LIT, IDROP, IADD, ISUB, IMUL, IDIV, ILT, IGT, JZ, JNZ, JMP, ICALL, IRET, hneg, hp10, binStep] at hstep
        cases hstep; rfl
  by_cases hp11 : vmAt vm pc.toNat = ILT
  · cases stk with
    | nil => simp [step, HALT, FETCH, STORE, LIT1, LIT2, LIT, IDROP, IADD, ISUB, IMUL, IDIV, ILT, IGT, JZ, JNZ, JMP, ICALL, IRET, hneg, hp11, binStep] at hstep
    | cons t r =>
      cases r with
      | nil => simp [step, HALT, FETCH, STORE, LIT1, LIT2, LIT, IDROP, IADD, ISUB, IMUL, IDIV, ILT, IGT, JZ, JNZ, JMP, ICALL, IRET, hneg, hp11, binStep] at hstep
      | cons n r2 =>
        simp [step, HALT, FETCH, STORE, LIT1, LIT2, LIT, IDROP, IADD, ISUB, IMUL, IDIV, ILT, IGT, JZ, JNZ, JMP, ICALL, IRET, hneg, hp11, binStep] at hstep
        cases hstep; rfl
  by_cases hp12 : vmAt vm pc.toNat = IGT
  · cases stk with
    | nil => simp [step, HALT, FETCH, STORE, LIT1, LIT2, LIT, IDROP, IADD, ISUB, IMUL, IDIV, ILT, IGT, JZ, JNZ, JMP, ICALL, IRET, hneg, hp12, binStep] at hstep
    | cons t r =>
      cases r with
      | nil => simp [step, HALT, FETCH, STORE, LIT1, LIT2, LIT, IDROP, IADD, ISUB, IMUL, IDIV, ILT, IGT, JZ, JNZ, JMP, ICALL, IRET, hneg, hp12, binStep] at hstep
      | cons n r2 =>
        simp [step, HALT, FETCH, STORE, LIT1, LIT2, LIT, IDROP, IADD, ISUB, IMUL, IDIV, ILT, IGT, JZ, JNZ, JMP, ICALL, IRET, hneg, hp12, binStep] at hstep
        cases hstep; rfl
  by_cases hp13 : vmAt vm pc.toNat = JZ
  · cases stk with
    | nil => simp [step, HALT, FETCH, STORE, LIT1, LIT2, LIT, IDROP, IADD, ISUB, IMUL, IDIV, ILT, IGT, JZ, JNZ, JMP, ICALL, IRET, hneg, hp13] at hstep
    | cons z r =>
      simp [step, HALT, FETCH, STORE, LIT1, LIT2, LIT, IDROP, IADD, ISUB, IMUL, IDIV, ILT, IGT, JZ, JNZ, JMP, ICALL, IRET, hneg, hp13] at hstep
      split at hstep
      · cases hstep; rfl
      · cases hstep; rfl
  by_cases hp14 : vmAt vm pc.toNat = JNZ
  · cases stk with
    | nil => simp [step, HALT, FETCH, STORE, LIT1, LIT2, LIT, IDROP, IADD, ISUB, IMUL, IDIV, ILT, IGT, JZ, JNZ, JMP, ICALL, IRET, hneg, hp14] at hstep
    | cons z r =>
      simp [step, HALT, FETCH, STORE, LIT1, LIT2, LIT, IDROP, IADD, ISUB, IMUL, IDIV, ILT, IGT, JZ, JNZ, JMP, ICALL, IRET, hneg, hp14] at hstep
      split at hstep
      · cases hstep; rfl
      · cases hstep; rfl
  by_cases hp15 : vmAt vm pc.toNat = JMP
  · simp [step, HALT, FETCH, STORE, LIT1, LIT2, LIT, IDROP, IADD, ISUB, IMUL, IDIV, ILT, IGT, JZ, JNZ, JMP, ICALL, IRET, hneg, hp15] at hstep
    cases hstep; rfl
  by_cases hp16 : vmAt vm pc.toNat = ICALL
  · simp [step, HALT, FETCH, STORE, LIT1, LIT2, LIT, IDROP, IADD, ISUB, IMUL, IDIV, ILT, IGT, JZ, JNZ, JMP, ICALL, IRET, hneg, hp16] at hstep
    split at hstep
    · cases hstep
    · cases hstep; rfl
  by_cases hp17 : vmAt vm pc.toNat = IRET
  · cases rst with
    | nil => simp [step, HALT, FETCH, STORE, LIT1, LIT2, LIT, IDROP, IADD, ISUB, IMUL, IDIV, ILT, IGT, JZ, JNZ, JMP, ICALL, IRET, hneg, hp17] at hstep
    | cons r rs =>
      simp [step, HALT, FETCH, STORE, LIT1, LIT2, LIT, IDROP, IADD, ISUB, IMUL, IDIV, ILT, IGT, JZ, JNZ, JMP, ICALL, IRET, hneg, hp17] at hstep
      cases hstep; rfl
  simp only [HALT, FETCH, STORE, LIT1, LIT2, LIT, IDROP, IADD, ISUB, IMUL, IDIV, ILT, IGT, JZ, JNZ, JMP, ICALL, IRET] at hp0 hp1 hp2 hp3 hp4 hp5 hp6 hp7 hp8 hp9 hp10 hp11 hp12 hp13 hp14 hp15 hp16 hp17
  simp [step, HALT, FETCH, STORE, LIT1, LIT2, LIT, IDROP, IADD, ISUB, IMUL, IDIV, ILT, IGT, JZ, JNZ, JMP, ICALL, IRET, hneg, hp0, hp1, hp2, hp3, hp4, hp5, hp6, hp7, hp8, hp9, hp10, hp11, hp12, hp13, hp14, hp15, hp16, hp17] at hstep


/-- C10: a symbol entry's value slot is untouched by `dict_add`, and every
entry's value slot is 0 after parsing from the initial zero-initialised
table (so a variable's slot is 0 at the moment its entry is created);
`FETCH i` pushes `symbol[i].value` — 0 while the slot is still 0 — and
every dispatch other than a `STORE` to `i` preserves `symbol[i].value`,
so a `FETCH` of a variable executed before any `STORE` to that variable
pushes 0. -/
theorem C10_variables_zero_initialized :
    (∀ (nm : String) (k : Nat) (s : St) (i : Nat),
      (dictAt (dict_add nm k s).2.dict i).val = (dictAt s.dict i).val) ∧
    (∀ (toks : List Tok) (fuel : Nat) (x : node_t) (s' : St),
      program fuel (initSt toks) = .ok (x, s') →
      ∀ i, (dictAt s'.dict i).val = 0) ∧
    (∀ (vm : List Nat) (cfg : Config) (p i : Nat), cfg.pc = (p : Int) →
      vmAt vm p = FETCH → f2 vm (p + 1) = (i : Int) → (dictAt cfg.dict i).val = 0 →
      step vm cfg = .next { cfg with pc := (p : Int) + 3, st := 0 :: cfg.st }) ∧
    (∀ (vm : List Nat) (cfg cfg' : Config) (i : Nat), step vm cfg = .next cfg' →
      vmAt vm cfg.pc.toNat ≠ STORE ∨ f2 vm (cfg.pc.toNat + 1) ≠ (i : Int) →
      (dictAt cfg'.dict i).val = (dictAt cfg.dict i).val) := by
  refine ⟨pv_dict_add, ?_, ?_, step_dict_val_preserved⟩
  · intro toks fuel x s' h i
    have := pv_program fuel (initSt toks) x s' h i
    simpa [initSt, dictAt, dict0] using this
  · intro vm cfg p i hpc hop hidx hval
    obtain ⟨pc, stk, rst, dict⟩ := cfg
    simp only [Config.pc] at hpc
    simp only [Config.dict] at hval
    subst hpc
    have hi : ¬ ((i : Int) < 0) := by omega
    simp [step, hop, hidx, hi, hval, HALT, FETCH, STORE, LIT1, LIT2, LIT, IDROP,
      IADD, ISUB, IMUL, IDIV, ILT, IGT, JZ, JNZ, JMP, ICALL, IRET]

/-- Witness for C10: parsing `a;` leaves the fresh entry for `a` with a
zero value slot; a `FETCH 1` then pushes 0; and a `LIT1` dispatch leaves
entry 1's value slot unchanged. -/
theorem C10_variables_zero_initialized_witness :
    (dictAt (dict_add "b" IsVar (initSt [])).2.dict 1).val =
      (dictAt (initSt []).dict 1).val ∧
    (∀ i, ∀ x s', program 6 (initSt [.ID "a", .SEMI, .EOI]) = .ok (x, s') →
      (dictAt s'.dict i).val = 0) ∧
    step [1, 1, 0] ⟨0, [], [], [dict0, ⟨IsVar, 0, "a"⟩]⟩ =
      .next ⟨3, [0], [], [dict0, ⟨IsVar, 0, "a"⟩]⟩ ∧
    (dictAt (⟨2, [1], [], [dict0, ⟨IsVar, 0, "a"⟩]⟩ : Config).dict 1).val =
      (dictAt (⟨0, [], [], [dict0, ⟨IsVar, 0, "a"⟩]⟩ : Config).dict 1).val := by
  refine ⟨C10_variables_zero_initialized.1 "b" IsVar (initSt []) 1, ?_, ?_, ?_⟩
  · intro i x s' h
    exact C10_variables_zero_initialized.2.1 [.ID "a", .SEMI, .EOI] 6 x s' h i
  · have h := C10_variables_zero_initialized.2.2.1 [1, 1, 0]
      ⟨0, [], [], [dict0, ⟨IsVar, 0, "a"⟩]⟩ 0 1 rfl (by decide) (by decide) (by decide)
    simpa using h
  · exact C10_variables_zero_initialized.2.2.2 [3, 1, 0]
      ⟨0, [], [], [dict0, ⟨IsVar, 0, "a"⟩]⟩ ⟨2, [1], [], [dict0, ⟨IsVar, 0, "a"⟩]⟩ 1
      (by decide) (by decide)

/-- Counterexample to C8 as stated: with the symbol table full
(`last = DICT_SZ`), `dict_add` does not fail — it returns index
`DICT_SZ + 1`, bumps `last` past the capacity and stores the name in the
cell beyond the C array's last valid index; likewise with the code buffer
full (`here = VM_SZ`), `g` does not fail — it writes the byte at index
`VM_SZ` and bumps `here` past the capacity.  (In the C source these are
out-of-bounds writes; `dict_add` and `g` have no capacity check.) -/
theorem C8_counterexample :
    (dict_add "x" IsVar (⟨[], 0, DICT_SZ, [], [], 0⟩ : St)).1 = DICT_SZ + 1 ∧
    (dict_add "x" IsVar (⟨[], 0, DICT_SZ, [], [], 0⟩ : St)).2.last = DICT_SZ + 1 ∧
    (dictAt (dict_add "x" IsVar (⟨[], 0, DICT_SZ, [], [], 0⟩ : St)).2.dict
      (DICT_SZ + 1)).nm = "x" ∧
    DICT_SZ < DICT_SZ + 1 ∧
    (g 7 (⟨[], 0, 0, [], [], VM_SZ⟩ : St)).here = VM_SZ + 1 ∧
    vmAt (g 7 (⟨[], 0, 0, [], [], VM_SZ⟩ : St)).vm VM_SZ = 7 := by
  refine ⟨rfl, rfl, ?_, by decide, rfl, ?_⟩
  · show (dictAt (padSet [] (DICT_SZ + 1) dict0 _) (DICT_SZ + 1)).nm = "x"
    rw [dictAt_padSet, if_pos rfl]
  · show vmAt (padSet [] VM_SZ 0 _) VM_SZ = 7
    rw [vmAt_padSet, if_pos rfl]
    decide

/-- C8 (amended): allocating an AST node when the pool is full fails with
the fatal empty-diagnostic error, and succeeds (incrementing the counter)
below capacity; but symbol-table insertion and byte emission perform no
capacity check at all — they unconditionally bump `last`/`here` and write
the next cell, whatever the current size (the source marks `g` with
"missing overflow check"). -/
theorem C8_only_node_pool_checked (s : St) :
    (MAX_NODES ≤ s.nnodes → new_node s = .error (.nodePool, s)) ∧
    (s.nnodes < MAX_NODES →
      new_node s = .ok ((), { s with nnodes := s.nnodes + 1 })) ∧
    (∀ (nm : String) (k : Nat), (dict_add nm k s).1 = s.last + 1 ∧
      (dict_add nm k s).2.last = s.last + 1 ∧
      (dictAt (dict_add nm k s).2.dict (s.last + 1)).nm = nm) ∧
    (∀ b : Int, (g b s).here = s.here + 1 ∧
      vmAt (g b s).vm s.here = ((b % 256).toNat)) := by
  refine ⟨?_, ?_, ?_, ?_⟩
  · intro h
    unfold new_node
    rw [if_pos h]
  · intro h
    unfold new_node
    rw [if_neg (Nat.not_le.mpr h)]
  · intro nm k
    refine ⟨rfl, rfl, ?_⟩
    show (dictAt (padSet s.dict (s.last + 1) dict0 _) (s.last + 1)).nm = nm
    rw [dictAt_padSet, if_pos rfl]
  · intro b
    refine ⟨rfl, ?_⟩
    show vmAt (padSet s.vm s.here 0 _) s.here = _
    rw [vmAt_padSet, if_pos rfl]

/-- Witness for C8 (amended) at a full pool, a below-capacity pool, and
concrete insert/emission. -/
theorem C8_only_node_pool_checked_witness :
    new_node (⟨[], MAX_NODES, 0, [], [], 0⟩ : St) =
      .error (.nodePool, ⟨[], MAX_NODES, 0, [], [], 0⟩) ∧
    new_node (initSt []) = .ok ((), { initSt [] with nnodes := 1 }) ∧
    (dict_add "y" IsVar (initSt [])).2.last = 1 ∧
    (g 300 (initSt [])).here = 1 ∧ vmAt (g 300 (initSt [])).vm 0 = 44 := by
  have h := C8_only_node_pool_checked (⟨[], MAX_NODES, 0, [], [], 0⟩ : St)
  have h2 := C8_only_node_pool_checked (initSt [])
  refine ⟨h.1 (le_refl _), h2.2.1 (by decide), (h2.2.2.1 "y" IsVar).2.1, ?_, ?_⟩
  · exact (h2.2.2.2 300).1
  · have := (h2.2.2.2 300).2
    simpa [initSt] using this

/-- C9: the lexer accepts the 16-character identifier `aaaaaaaaaaaaaaaa`
and the parser's `dict_add` stores the whole name — the stored name has
length 16 > 15, i.e. the `strcpy` into the 16-byte `nm` field of `dict_t`
overruns it (the claimed "name length ≤ 15" invariant fails on the code
at this input). -/
theorem C9_stored_name_overflows :
    tokenizeStr 40 "aaaaaaaaaaaaaaaa;" =
      .ok [.ID "aaaaaaaaaaaaaaaa", .SEMI, .EOI] ∧
    (∀ x s', parseNT 6 .stmt (initSt [.ID "aaaaaaaaaaaaaaaa", .SEMI, .EOI]) =
        .ok (x, s') →
      (dictAt s'.dict 1).nm = "aaaaaaaaaaaaaaaa" ∧
      15 < (dictAt s'.dict 1).nm.length) ∧
    ("aaaaaaaaaaaaaaaa" : String).length = 16 := by
  refine ⟨by decide, ?_, by decide⟩
  intro x s' h
  have hres : parseNT 6 .stmt (initSt [.ID "aaaaaaaaaaaaaaaa", .SEMI, .EOI]) =
      .ok (.mk EXPR (.mk VAR .nil .nil .nil 1) .nil .nil 0,
        ⟨[.EOI], 2, 1, [dict0, ⟨IsVar, 0, "aaaaaaaaaaaaaaaa"⟩], [], 0⟩) := by
    decide
  rw [hres] at h
  cases h
  exact ⟨rfl, by decide⟩

/-- Witness for C3 at `v = 200` (the live `LIT2` tier; the other two tiers
hold vacuously at this value). -/
theorem C3_cst_literal_tiers_witness :
    (c (.mk CST .nil .nil .nil 200) (initSt [])).here = 3 ∧
    vmAt (c (.mk CST .nil .nil .nil 200) (initSt [])).vm 0 = LIT2 ∧
    (vmAt (c (.mk CST .nil .nil .nil 200) (initSt [])).vm 1 : Int)
      + 256 * (vmAt (c (.mk CST .nil .nil .nil 200) (initSt [])).vm 2 : Int) = 200 := by
  have h := (C3_cst_literal_tiers .nil .nil .nil 200 (initSt []) (by decide)).2.1
    (by decide) (by decide)
  simpa [initSt] using h

/-- `sum` folds every further arithmetic operator into a left-heavy tree:
all four operators share one precedence level and associate left. -/
theorem sum_parses_left_assoc (f : Nat) (v1 v2 v3 : Nat) (t1 t2 : Tok) (k1 k2 : Nat)
    (s : St) (r : List Tok) (h1 : mathop t1 = some k1) (h2 : mathop t2 = some k2)
    (hts : s.toks = .INT v1 :: t1 :: .INT v2 :: t2 :: .INT v3 :: .SEMI :: r)
    (hnn : s.nnodes + 5 ≤ MAX_NODES) :
    parseNT (f + 4) .sum s =
      .ok (.mk k2 (.mk k1 (.mk CST .nil .nil .nil (v1 : Int))
          (.mk CST .nil .nil .nil (v2 : Int)) .nil 0)
          (.mk CST .nil .nil .nil (v3 : Int)) .nil 0,
        ⟨.SEMI :: r, s.nnodes + 5, s.last, s.dict, s.vm, s.here⟩) := by
  have u4 : parseNT (f + 4) = parseStep (parseNT (f + 3)) := rfl
  have u3 : parseNT (f + 3) = parseStep (parseNT (f + 2)) := rfl
  have u2 : parseNT (f + 2) = parseStep (parseNT (f + 1)) := rfl
  have u1 : parseNT (f + 1) = parseStep (parseNT f) := rfl
  have hb1 : ¬ (1000 ≤ s.nnodes) := by simp [MAX_NODES] at hnn; omega
  have hb2 : ¬ (1000 ≤ s.nnodes + 1) := by simp [MAX_NODES] at hnn; omega
  have hb3 : ¬ (1000 ≤ s.nnodes + 1 + 1) := by simp [MAX_NODES] at hnn; omega
  have hb4 : ¬ (1000 ≤ s.nnodes + 1 + 1 + 1) := by simp [MAX_NODES] at hnn; omega
  have hb5 : ¬ (1000 ≤ s.nnodes + 1 + 1 + 1 + 1) := by simp [MAX_NODES] at hnn; omega
  have hsemi : mathop .SEMI = none := rfl
  simp [u4, u3, u2, u1, parseStep, PM_bind_def, PM_pure_def, curSym, nextSymP,
    new_node, hsemi, hts, h1, h2, hb1, hb2, hb3, hb4, hb5, MAX_NODES]

theorem c5tok : tokenizeStr 60 srcS1 = .ok toksS1 := by decide

/-- The term/sum at `a = ...` inside the block: parses the variable `a`. -/
theorem c5sumA (f : Nat) :
    parseNT (f + 2) .sum
      ⟨[.ID "a", .EQUAL, .INT 1, .PLUS, .INT 2, .STAR, .INT 3, .SEMI, .RBRA, .EOI],
       4, 1, dictM, [], 0⟩ =
      .ok (.mk VAR .nil .nil .nil 2,
        ⟨[.EQUAL, .INT 1, .PLUS, .INT 2, .STAR, .INT 3, .SEMI, .RBRA, .EOI],
         5, 2, dictMA, [], 0⟩) := by
  have u2 : parseNT (f + 2) = parseStep (parseNT (f + 1)) := rfl
  have u1 : parseNT (f + 1) = parseStep (parseNT f) := rfl
  have hres : resolveVar "a"
      ⟨[.ID "a", .EQUAL, .INT 1, .PLUS, .INT 2, .STAR, .INT 3, .SEMI, .RBRA, .EOI],
       5, 1, dictM, [], 0⟩ =
      .ok (2, ⟨[.ID "a", .EQUAL, .INT 1, .PLUS, .INT 2, .STAR, .INT 3, .SEMI, .RBRA, .EOI],
        5, 2, dictMA, [], 0⟩) := by decide
  simp [u2, u1, parseStep, PM_bind_def, PM_pure_def, curSym, nextSymP, new_node,
    hres, mathop, MAX_NODES]



/-- The sum at `1 + 2 * 3`: instance of the left-associativity lemma. -/
theorem c5sumB (f : Nat) :
    parseNT (f + 4) .sum
      ⟨[.INT 1, .PLUS, .INT 2, .STAR, .INT 3, .SEMI, .RBRA, .EOI], 5, 2, dictMA, [], 0⟩ =
      .ok (.mk MUL (.mk ADD (.mk CST .nil .nil .nil 1) (.mk CST .nil .nil .nil 2) .nil 0)
          (.mk CST .nil .nil .nil 3) .nil 0,
        ⟨[.SEMI, .RBRA, .EOI], 10, 2, dictMA, [], 0⟩) := by
  simpa using sum_parses_left_assoc f 1 2 3 .PLUS .STAR ADD MUL
    ⟨[.INT 1, .PLUS, .INT 2, .STAR, .INT 3, .SEMI, .RBRA, .EOI], 5, 2, dictMA, [], 0⟩
    [.RBRA, .EOI] rfl rfl rfl (by decide)

/-- The test around that sum (no comparison follows). -/
theorem c5testB (f : Nat) :
    parseNT (f + 5) .test
      ⟨[.INT 1, .PLUS, .INT 2, .STAR, .INT 3, .SEMI, .RBRA, .EOI], 5, 2, dictMA, [], 0⟩ =
      .ok (.mk MUL (.mk ADD (.mk CST .nil .nil .nil 1) (.mk CST .nil .nil .nil 2) .nil 0)
          (.mk CST .nil .nil .nil 3) .nil 0,
        ⟨[.SEMI, .RBRA, .EOI], 10, 2, dictMA, [], 0⟩) := by
  have u : parseNT (f + 5) = parseStep (parseNT (f + 4)) := rfl
  simp [u, parseStep, PM_bind_def, PM_pure_def, curSym, c5sumB f]

/-- The right-hand-side expression `1 + 2 * 3` (not an assignment). -/
theorem c5exprB (f : Nat) :
    parseNT (f + 6) .expr
      ⟨[.INT 1, .PLUS, .INT 2, .STAR, .INT 3, .SEMI, .RBRA, .EOI], 5, 2, dictMA, [], 0⟩ =
      .ok (.mk MUL (.mk ADD (.mk CST .nil .nil .nil 1) (.mk CST .nil .nil .nil 2) .nil 0)
          (.mk CST .nil .nil .nil 3) .nil 0,
        ⟨[.SEMI, .RBRA, .EOI], 10, 2, dictMA, [], 0⟩) := by
  have u : parseNT (f + 6) = parseStep (parseNT (f + 5)) := rfl
  simp [u, parseStep, PM_bind_def, PM_pure_def, curSym, isID, c5testB f]

/-- The test around the variable `a` (no comparison follows). -/
theorem c5testA (f : Nat) :
    parseNT (f + 3) .test
      ⟨[.ID "a", .EQUAL, .INT 1, .PLUS, .INT 2, .STAR, .INT 3, .SEMI, .RBRA, .EOI],
       4, 1, dictM, [], 0⟩ =
      .ok (.mk VAR .nil .nil .nil 2,
        ⟨[.EQUAL, .INT 1, .PLUS, .INT 2, .STAR, .INT 3, .SEMI, .RBRA, .EOI],
         5, 2, dictMA, [], 0⟩) := by
  have u : parseNT (f + 3) = parseStep (parseNT (f + 2)) := rfl
  simp [u, parseStep, PM_bind_def, PM_pure_def, curSym, c5sumA f]

/-- The assignment expression `a = 1 + 2 * 3`. -/
theorem c5exprA (f : Nat) :
    parseNT (f + 7) .expr
      ⟨[.ID "a", .EQUAL, .INT 1, .PLUS, .INT 2, .STAR, .INT 3, .SEMI, .RBRA, .EOI],
       4, 1, dictM, [], 0⟩ =
      .ok (.mk SET (.mk VAR .nil .nil .nil 2)
          (.mk MUL (.mk ADD (.mk CST .nil .nil .nil 1) (.mk CST .nil .nil .nil 2) .nil 0)
            (.mk CST .nil .nil .nil 3) .nil 0) .nil 0,
        ⟨[.SEMI, .RBRA, .EOI], 11, 2, dictMA, [], 0⟩) := by
  have u : parseNT (f + 7) = parseStep (parseNT (f + 6)) := rfl
  have ht : parseNT (f + 6) .test
      ⟨[.ID "a", .EQUAL, .INT 1, .PLUS, .INT 2, .STAR, .INT 3, .SEMI, .RBRA, .EOI],
       4, 1, dictM, [], 0⟩ =
      .ok (.mk VAR .nil .nil .nil 2,
        ⟨[.EQUAL, .INT 1, .PLUS, .INT 2, .STAR, .INT 3, .SEMI, .RBRA, .EOI],
         5, 2, dictMA, [], 0⟩) := c5testA (f + 3)
  simp [u, parseStep, PM_bind_def, PM_pure_def, curSym, nextSymP, new_node, isID,
    kindOf, ht, c5exprB f, MAX_NODES]



/-- The expression statement `a = 1 + 2 * 3;`. -/
theorem c5stmtA (f : Nat) :
    parseNT (f + 8) .stmt
      ⟨[.ID "a", .EQUAL, .INT 1, .PLUS, .INT 2, .STAR, .INT 3, .SEMI, .RBRA, .EOI],
       4, 1, dictM, [], 0⟩ =
      .ok (.mk EXPR (.mk SET (.mk VAR .nil .nil .nil 2)
          (.mk MUL (.mk ADD (.mk CST .nil .nil .nil 1) (.mk CST .nil .nil .nil 2) .nil 0)
            (.mk CST .nil .nil .nil 3) .nil 0) .nil 0) .nil .nil 0,
        ⟨[.RBRA, .EOI], 12, 2, dictMA, [], 0⟩) := by
  have u : parseNT (f + 8) = parseStep (parseNT (f + 7)) := rfl
  simp [u, parseStep, PM_bind_def, PM_pure_def, curSym, nextSymP, new_node,
    expect_sym, c5exprA f, MAX_NODES]

/-- The closing brace ends the block loop. -/
theorem c5blockRB (f : Nat) :
    parseNT (f + 8) (.blockLoop (.mk SEQ (.mk EMPTY .nil .nil .nil 0)
        (.mk EXPR (.mk SET (.mk VAR .nil .nil .nil 2)
          (.mk MUL (.mk ADD (.mk CST .nil .nil .nil 1) (.mk CST .nil .nil .nil 2) .nil 0)
            (.mk CST .nil .nil .nil 3) .nil 0) .nil 0) .nil .nil 0) .nil 0))
      ⟨[.RBRA, .EOI], 12, 2, dictMA, [], 0⟩ =
      .ok (.mk SEQ (.mk EMPTY .nil .nil .nil 0)
          (.mk EXPR (.mk SET (.mk VAR .nil .nil .nil 2)
            (.mk MUL (.mk ADD (.mk CST .nil .nil .nil 1) (.mk CST .nil .nil .nil 2) .nil 0)
              (.mk CST .nil .nil .nil 3) .nil 0) .nil 0) .nil .nil 0) .nil 0,
        ⟨[.EOI], 12, 2, dictMA, [], 0⟩) := by
  have u : parseNT (f + 8) = parseStep (parseNT (f + 7)) := rfl
  simp [u, parseStep, PM_bind_def, PM_pure_def, curSym, nextSymP]

/-- The block body `{ a = 1 + 2 * 3; }` folded into a `SEQ`. -/
theorem c5blockA (f : Nat) :
    parseNT (f + 9) (.blockLoop (.mk EMPTY .nil .nil .nil 0))
      ⟨[.ID "a", .EQUAL, .INT 1, .PLUS, .INT 2, .STAR, .INT 3, .SEMI, .RBRA, .EOI],
       3, 1, dictM, [], 0⟩ =
      .ok (.mk SEQ (.mk EMPTY .nil .nil .nil 0)
          (.mk EXPR (.mk SET (.mk VAR .nil .nil .nil 2)
            (.mk MUL (.mk ADD (.mk CST .nil .nil .nil 1) (.mk CST .nil .nil .nil 2) .nil 0)
              (.mk CST .nil .nil .nil 3) .nil 0) .nil 0) .nil .nil 0) .nil 0,
        ⟨[.EOI], 12, 2, dictMA, [], 0⟩) := by
  have u : parseNT (f + 9) = parseStep (parseNT (f + 8)) := rfl
  simp [u, parseStep, PM_bind_def, PM_pure_def, curSym, nextSymP, new_node,
    c5stmtA f, c5blockRB f, MAX_NODES]



/-- The brace statement `{ a = 1 + 2 * 3; }`. -/
theorem c5stmtLB (f : Nat) :
    parseNT (f + 10) .stmt
      ⟨[.LBRA, .ID "a", .EQUAL, .INT 1, .PLUS, .INT 2, .STAR, .INT 3, .SEMI, .RBRA, .EOI],
       2, 1, dictM, [], 0⟩ =
      .ok (.mk SEQ (.mk EMPTY .nil .nil .nil 0)
          (.mk EXPR (.mk SET (.mk VAR .nil .nil .nil 2)
            (.mk MUL (.mk ADD (.mk CST .nil .nil .nil 1) (.mk CST .nil .nil .nil 2) .nil 0)
              (.mk CST .nil .nil .nil 3) .nil 0) .nil 0) .nil .nil 0) .nil 0,
        ⟨[.EOI], 12, 2, dictMA, [], 0⟩) := by
  have u : parseNT (f + 10) = parseStep (parseNT (f + 9)) := rfl
  simp [u, parseStep, PM_bind_def, PM_pure_def, curSym, nextSymP, new_node,
    c5blockA f, MAX_NODES]

/-- The whole definition `void main() { a = 1 + 2 * 3; }`. -/
theorem c5stmtVD (f : Nat) :
    parseNT (f + 11) .stmt (⟨toksS1, 1, 0, [], [], 0⟩ : St) =
      .ok (.mk FUNC_DEF (.mk SEQ (.mk EMPTY .nil .nil .nil 0)
          (.mk EXPR (.mk SET (.mk VAR .nil .nil .nil 2)
            (.mk MUL (.mk ADD (.mk CST .nil .nil .nil 1) (.mk CST .nil .nil .nil 2) .nil 0)
              (.mk CST .nil .nil .nil 3) .nil 0) .nil 0) .nil .nil 0) .nil 0) .nil .nil 1,
        ⟨[.EOI], 12, 2, dictMA, [], 0⟩) := by
  have u : parseNT (f + 11) = parseStep (parseNT (f + 10)) := rfl
  have hdf : dict_find "main" IsFunc
      ⟨[.LBRA, .ID "a", .EQUAL, .INT 1, .PLUS, .INT 2, .STAR, .INT 3, .SEMI, .RBRA, .EOI],
       2, 0, [], [], 0⟩ = 0 := by decide
  have hda : dict_add "main" IsFunc
      ⟨[.LBRA, .ID "a", .EQUAL, .INT 1, .PLUS, .INT 2, .STAR, .INT 3, .SEMI, .RBRA, .EOI],
       2, 0, [], [], 0⟩ =
      (1, ⟨[.LBRA, .ID "a", .EQUAL, .INT 1, .PLUS, .INT 2, .STAR, .INT 3, .SEMI, .RBRA, .EOI],
        2, 1, dictM, [], 0⟩) := by decide
  simp [u, toksS1, parseStep, PM_bind_def, PM_pure_def, curSym, nextSymP, new_node,
    hdf, hda, c5stmtLB f, MAX_NODES]

/-- `program()` on the token stream of S1 yields the left-heavy AST. -/
theorem c5program (f : Nat) :
    program (f + 11) (initSt toksS1) = .ok (astS1, stS1) := by
  have u : parseNT (f + 11) .stmt (⟨toksS1, 1, 0, [], [], 0⟩ : St) =
      .ok (.mk FUNC_DEF (.mk SEQ (.mk EMPTY .nil .nil .nil 0)
          (.mk EXPR (.mk SET (.mk VAR .nil .nil .nil 2)
            (.mk MUL (.mk ADD (.mk CST .nil .nil .nil 1) (.mk CST .nil .nil .nil 2) .nil 0)
              (.mk CST .nil .nil .nil 3) .nil 0) .nil 0) .nil .nil 0) .nil 0) .nil .nil 1,
        ⟨[.EOI], 12, 2, dictMA, [], 0⟩) := c5stmtVD f
  simp [program, initSt, PM_bind_def, PM_pure_def, new_node, u, astS1, stS1, MAX_NODES]



/-- Tokenize, parse, lower and run S1: the pipeline equality. -/
theorem c5pipeline : runProgram 60 100 srcS1 = .ok (compiledS1, .halted finalS1) := by
  have h2 : program 60 (initSt toksS1) = .ok (astS1, stS1) := c5program 49
  have h3 : compile astS1 stS1 = compiledS1 := by decide
  have h4 : runN compiledS1.vm 100 (initConfig compiledS1) = .halted finalS1 := by decide
  simp [runProgram, c5tok, h2, h3, h4]

/-- C5: the parser gives all four arithmetic operators one shared,
left-associative precedence level: after a first operand `v1`, each further
operator token folds the next operand into a left-heavy tree, so
`v1 t1 v2 t2 v3` parses as `(v1 t1 v2) t2 v3` for any two arithmetic
operators `t1`, `t2` — in particular `1 + 2 * 3` parses as `(1 + 2) * 3`;
and compiling and running `void main() { a = 1 + 2 * 3; }` terminates
normally with the variable `a` holding 9 and the operand stack empty. -/
theorem C5_single_precedence_left_assoc :
    (∀ (f v1 v2 v3 : Nat) (t1 t2 : Tok) (k1 k2 : Nat) (s : St) (r : List Tok),
      mathop t1 = some k1 → mathop t2 = some k2 →
      s.toks = .INT v1 :: t1 :: .INT v2 :: t2 :: .INT v3 :: .SEMI :: r →
      s.nnodes + 5 ≤ MAX_NODES →
      parseNT (f + 4) .sum s =
        .ok (.mk k2 (.mk k1 (.mk CST .nil .nil .nil (v1 : Int))
            (.mk CST .nil .nil .nil (v2 : Int)) .nil 0)
            (.mk CST .nil .nil .nil (v3 : Int)) .nil 0,
          ⟨.SEMI :: r, s.nnodes + 5, s.last, s.dict, s.vm, s.here⟩)) ∧
    runProgram 60 100 srcS1 = .ok (compiledS1, .halted finalS1) ∧
    finalS1.st = [] ∧ dictAt finalS1.dict 2 = ⟨IsVar, 9, "a"⟩ :=
  ⟨fun f v1 v2 v3 t1 t2 k1 k2 s r h1 h2 hts hnn =>
      sum_parses_left_assoc f v1 v2 v3 t1 t2 k1 k2 s r h1 h2 hts hnn,
    c5pipeline, by decide, by decide⟩

/-- Witness for C5: the left-associativity statement applied to the sum
`1 + 2 * 3` itself, at the state in which the sample parse reaches it. -/
theorem C5_single_precedence_left_assoc_witness :
    parseNT 23 .sum
      ⟨[.INT 1, .PLUS, .INT 2, .STAR, .INT 3, .SEMI, .RBRA, .EOI], 5, 2, dictMA, [], 0⟩ =
      .ok (.mk MUL (.mk ADD (.mk CST .nil .nil .nil 1) (.mk CST .nil .nil .nil 2) .nil 0)
          (.mk CST .nil .nil .nil 3) .nil 0,
        ⟨[.SEMI, .RBRA, .EOI], 10, 2, dictMA, [], 0⟩) := by
  have h := C5_single_precedence_left_assoc.1 19 1 2 3 .PLUS .STAR ADD MUL
    ⟨[.INT 1, .PLUS, .INT 2, .STAR, .INT 3, .SEMI, .RBRA, .EOI], 5, 2, dictMA, [], 0⟩
    [.RBRA, .EOI] rfl rfl rfl (by decide)
  simpa using h

/-- `term` on a known variable: looks the name up without touching the table. -/
theorem gterm_var (f : Nat) (nm : String) (i : Nat) (s : St) (r : List Tok)
    (hts : s.toks = .ID nm :: r) (hfind : dictFindFrom s.dict nm IsVar s.last = i)
    (hi : i ≠ 0) (hnn : ¬ (1000 ≤ s.nnodes)) :
    parseNT (f + 1) .term s =
      .ok (.mk VAR .nil .nil .nil (i : Int),
        ⟨r, s.nnodes + 1, s.last, s.dict, s.vm, s.here⟩) := by
  have u1 : parseNT (f + 1) = parseStep (parseNT f) := rfl
  simp [u1, parseStep, PM_bind_def, PM_pure_def, curSym, nextSymP, new_node,
    resolveVar, dict_find, hts, hfind, hi, hnn, MAX_NODES]

/-- `term` on an unknown variable: inserts it at `last + 1`. -/
theorem gterm_var_new (f : Nat) (nm : String) (s : St) (r : List Tok)
    (hts : s.toks = .ID nm :: r) (hfind : dictFindFrom s.dict nm IsVar s.last = 0)
    (hnn : ¬ (1000 ≤ s.nnodes)) :
    parseNT (f + 1) .term s =
      .ok (.mk VAR .nil .nil .nil ((s.last + 1 : Nat) : Int),
        ⟨r, s.nnodes + 1, s.last + 1,
         padSet s.dict (s.last + 1) dict0
           ⟨IsVar, (dictAt s.dict (s.last + 1)).val, nm⟩, s.vm, s.here⟩) := by
  have u1 : parseNT (f + 1) = parseStep (parseNT f) := rfl
  have hf0 : dictFindFrom s.dict nm 0 s.last = 0 := hfind
  simp [u1, parseStep, PM_bind_def, PM_pure_def, curSym, nextSymP, new_node,
    resolveVar, dict_find, dict_add, hts, hf0, hnn, MAX_NODES, IsVar]

/-- `term` on an integer literal. -/
theorem gterm_cst (f : Nat) (v : Nat) (s : St) (r : List Tok)
    (hts : s.toks = .INT v :: r) (hnn : ¬ (1000 ≤ s.nnodes)) :
    parseNT (f + 1) .term s =
      .ok (.mk CST .nil .nil .nil (v : Int),
        ⟨r, s.nnodes + 1, s.last, s.dict, s.vm, s.here⟩) := by
  have u1 : parseNT (f + 1) = parseStep (parseNT f) := rfl
  simp [u1, parseStep, PM_bind_def, PM_pure_def, curSym, nextSymP, new_node,
    hts, hnn, MAX_NODES]

/-- `sum` on a lone known variable (next token is no operator). -/
theorem gsum_var (f : Nat) (nm : String) (i : Nat) (t : Tok) (s : St) (r : List Tok)
    (hts : s.toks = .ID nm :: t :: r) (hmop : mathop t = none)
    (hfind : dictFindFrom s.dict nm IsVar s.last = i)
    (hi : i ≠ 0) (hnn : ¬ (1000 ≤ s.nnodes)) :
    parseNT (f + 2) .sum s =
      .ok (.mk VAR .nil .nil .nil (i : Int),
        ⟨t :: r, s.nnodes + 1, s.last, s.dict, s.vm, s.here⟩) := by
  have u2 : parseNT (f + 2) = parseStep (parseNT (f + 1)) := rfl
  have u1 : parseNT (f + 1) = parseStep (parseNT f) := rfl
  have hterm := gterm_var f nm i s (t :: r) hts hfind hi hnn
  simp [u2, parseStep, PM_bind_def, PM_pure_def, curSym, hterm, hmop]
  simp [u1, parseStep, PM_bind_def, PM_pure_def, curSym, hmop]

/-- `sum` on a lone integer literal (next token is no operator). -/
theorem gsum_cst (f : Nat) (v : Nat) (t : Tok) (s : St) (r : List Tok)
    (hts : s.toks = .INT v :: t :: r) (hmop : mathop t = none)
    (hnn : ¬ (1000 ≤ s.nnodes)) :
    parseNT (f + 2) .sum s =
      .ok (.mk CST .nil .nil .nil (v : Int),
        ⟨t :: r, s.nnodes + 1, s.last, s.dict, s.vm, s.here⟩) := by
  have u2 : parseNT (f + 2) = parseStep (parseNT (f + 1)) := rfl
  have u1 : parseNT (f + 1) = parseStep (parseNT f) := rfl
  have hterm := gterm_cst f v s (t :: r) hts hnn
  simp [u2, parseStep, PM_bind_def, PM_pure_def, curSym, hterm, hmop]
  simp [u1, parseStep, PM_bind_def, PM_pure_def, curSym, hmop]

/-- `test` on a lone known variable (no comparison follows). -/
theorem gtest_var (f : Nat) (nm : String) (i : Nat) (t : Tok) (s : St) (r : List Tok)
    (hts : s.toks = .ID nm :: t :: r) (hmop : mathop t = none)
    (hL : t ≠ .LESS) (hG : t ≠ .GRT)
    (hfind : dictFindFrom s.dict nm IsVar s.last = i)
    (hi : i ≠ 0) (hnn : ¬ (1000 ≤ s.nnodes)) :
    parseNT (f + 3) .test s =
      .ok (.mk VAR .nil .nil .nil (i : Int),
        ⟨t :: r, s.nnodes + 1, s.last, s.dict, s.vm, s.here⟩) := by
  have u : parseNT (f + 3) = parseStep (parseNT (f + 2)) := rfl
  have hsum := gsum_var f nm i t s r hts hmop hfind hi hnn
  simp [u, parseStep, PM_bind_def, PM_pure_def, curSym, hsum, hL, hG]

/-- `test` on a lone integer literal (no comparison follows). -/
theorem gtest_cst (f : Nat) (v : Nat) (t : Tok) (s : St) (r : List Tok)
    (hts : s.toks = .INT v :: t :: r) (hmop : mathop t = none)
    (hL : t ≠ .LESS) (hG : t ≠ .GRT) (hnn : ¬ (1000 ≤ s.nnodes)) :
    parseNT (f + 3) .test s =
      .ok (.mk CST .nil .nil .nil (v : Int),
        ⟨t :: r, s.nnodes + 1, s.last, s.dict, s.vm, s.here⟩) := by
  have u : parseNT (f + 3) = parseStep (parseNT (f + 2)) := rfl
  have hsum := gsum_cst f v t s r hts hmop hnn
  simp [u, parseStep, PM_bind_def, PM_pure_def, curSym, hsum, hL, hG]

/-- `expr` on a lone integer literal. -/
theorem gexpr_cst (f : Nat) (v : Nat) (t : Tok) (s : St) (r : List Tok)
    (hts : s.toks = .INT v :: t :: r) (hmop : mathop t = none)
    (hL : t ≠ .LESS) (hG : t ≠ .GRT) (hnn : ¬ (1000 ≤ s.nnodes)) :
    parseNT (f + 4) .expr s =
      .ok (.mk CST .nil .nil .nil (v : Int),
        ⟨t :: r, s.nnodes + 1, s.last, s.dict, s.vm, s.here⟩) := by
  have u : parseNT (f + 4) = parseStep (parseNT (f + 3)) := rfl
  have htest := gtest_cst f v t s r hts hmop hL hG hnn
  simp [u, parseStep, PM_bind_def, PM_pure_def, curSym, isID, hts, htest]

/-- The assignment expression `nm = v` for a known variable `nm`. -/
theorem gexpr_assign (f : Nat) (nm : String) (i v : Nat) (t : Tok) (s : St) (r : List Tok)
    (hts : s.toks = .ID nm :: .EQUAL :: .INT v :: t :: r) (hmop : mathop t = none)
    (hL : t ≠ .LESS) (hG : t ≠ .GRT)
    (hfind : dictFindFrom s.dict nm IsVar s.last = i) (hi : i ≠ 0)
    (hnn : s.nnodes + 3 ≤ MAX_NODES) :
    parseNT (f + 6) .expr s =
      .ok (.mk SET (.mk VAR .nil .nil .nil (i : Int)) (.mk CST .nil .nil .nil (v : Int)) .nil 0,
        ⟨t :: r, s.nnodes + 3, s.last, s.dict, s.vm, s.here⟩) := by
  have u : parseNT (f + 6) = parseStep (parseNT (f + 5)) := rfl
  have hb1 : ¬ (1000 ≤ s.nnodes) := by simp [MAX_NODES] at hnn; omega
  have hb2 : ¬ (1000 ≤ s.nnodes + 1) := by simp [MAX_NODES] at hnn; omega
  have hb3 : ¬ (1000 ≤ s.nnodes + 1 + 1) := by simp [MAX_NODES] at hnn; omega
  have htest : parseNT (f + 5) .test s =
      .ok (.mk VAR .nil .nil .nil (i : Int),
        ⟨.EQUAL :: .INT v :: t :: r, s.nnodes + 1, s.last, s.dict, s.vm, s.here⟩) :=
    gtest_var (f + 2) nm i .EQUAL s (.INT v :: t :: r) hts rfl
      (by simp) (by simp) hfind hi hb1
  have hrhs : parseNT (f + 5) .expr
      (⟨.INT v :: t :: r, s.nnodes + 1, s.last, s.dict, s.vm, s.here⟩ : St) =
      .ok (.mk CST .nil .nil .nil (v : Int),
        ⟨t :: r, s.nnodes + 1 + 1, s.last, s.dict, s.vm, s.here⟩) :=
    gexpr_cst (f + 1) v t
      (⟨.INT v :: t :: r, s.nnodes + 1, s.last, s.dict, s.vm, s.here⟩ : St) r rfl hmop hL hG hb2
  simp [u, parseStep, PM_bind_def, PM_pure_def, curSym, nextSymP, new_node, isID,
    kindOf, hts, htest, hrhs, hb3, MAX_NODES]

/-- The assignment expression `nm = v` for a fresh variable `nm`. -/
theorem gexpr_assign_new (f : Nat) (nm : String) (v : Nat) (t : Tok) (s : St) (r : List Tok)
    (hts : s.toks = .ID nm :: .EQUAL :: .INT v :: t :: r) (hmop : mathop t = none)
    (hL : t ≠ .LESS) (hG : t ≠ .GRT)
    (hfind : dictFindFrom s.dict nm IsVar s.last = 0)
    (hnn : s.nnodes + 3 ≤ MAX_NODES) :
    parseNT (f + 6) .expr s =
      .ok (.mk SET (.mk VAR .nil .nil .nil ((s.last + 1 : Nat) : Int))
          (.mk CST .nil .nil .nil (v : Int)) .nil 0,
        ⟨t :: r, s.nnodes + 3, s.last + 1,
         padSet s.dict (s.last + 1) dict0
           ⟨IsVar, (dictAt s.dict (s.last + 1)).val, nm⟩, s.vm, s.here⟩) := by
  have u : parseNT (f + 6) = parseStep (parseNT (f + 5)) := rfl
  have hb1 : ¬ (1000 ≤ s.nnodes) := by simp [MAX_NODES] at hnn; omega
  have hb2 : ¬ (1000 ≤ s.nnodes + 1) := by simp [MAX_NODES] at hnn; omega
  have hb3 : ¬ (1000 ≤ s.nnodes + 1 + 1) := by simp [MAX_NODES] at hnn; omega
  have hterm : parseNT (f + 3) .term s =
      .ok (.mk VAR .nil .nil .nil ((s.last + 1 : Nat) : Int),
        ⟨.EQUAL :: .INT v :: t :: r, s.nnodes + 1, s.last + 1,
         padSet s.dict (s.last + 1) dict0
           ⟨IsVar, (dictAt s.dict (s.last + 1)).val, nm⟩, s.vm, s.here⟩) :=
    gterm_var_new (f + 2) nm s (.EQUAL :: .INT v :: t :: r) hts hfind hb1
  have hsum : parseNT (f + 4) .sum s =
      .ok (.mk VAR .nil .nil .nil ((s.last + 1 : Nat) : Int),
        ⟨.EQUAL :: .INT v :: t :: r, s.nnodes + 1, s.last + 1,
         padSet s.dict (s.last + 1) dict0
           ⟨IsVar, (dictAt s.dict (s.last + 1)).val, nm⟩, s.vm, s.here⟩) := by
    have u4 : parseNT (f + 4) = parseStep (parseNT (f + 3)) := rfl
    have u3 : parseNT (f + 3) = parseStep (parseNT (f + 2)) := rfl
    simp [u4, parseStep, PM_bind_def, PM_pure_def, curSym, hterm, mathop]
    simp [u3, parseStep, PM_bind_def, PM_pure_def, curSym, mathop]
  have htest : parseNT (f + 5) .test s =
      .ok (.mk VAR .nil .nil .nil ((s.last + 1 : Nat) : Int),
        ⟨.EQUAL :: .INT v :: t :: r, s.nnodes + 1, s.last + 1,
         padSet s.dict (s.last + 1) dict0
           ⟨IsVar, (dictAt s.dict (s.last + 1)).val, nm⟩, s.vm, s.here⟩) := by
    have u5 : parseNT (f + 5) = parseStep (parseNT (f + 4)) := rfl
    simp [u5, parseStep, PM_bind_def, PM_pure_def, curSym, hsum]
  have hrhs : parseNT (f + 5) .expr
      (⟨.INT v :: t :: r, s.nnodes + 1, s.last + 1,
        padSet s.dict (s.last + 1) dict0
          ⟨IsVar, (dictAt s.dict (s.last + 1)).val, nm⟩, s.vm, s.here⟩ : St) =
      .ok (.mk CST .nil .nil .nil (v : Int),
        ⟨t :: r, s.nnodes + 1 + 1, s.last + 1,
         padSet s.dict (s.last + 1) dict0
           ⟨IsVar, (dictAt s.dict (s.last + 1)).val, nm⟩, s.vm, s.here⟩) :=
    gexpr_cst (f + 1) v t _ r rfl hmop hL hG hb2
  simp [u, parseStep, PM_bind_def, PM_pure_def, curSym, nextSymP, new_node, isID,
    kindOf, hts, htest, hrhs, hb3, MAX_NODES]

/-- The statement `nm = v;` for a known variable. -/
theorem gstmt_assign (f : Nat) (nm : String) (i v : Nat) (s : St) (r : List Tok)
    (hts : s.toks = .ID nm :: .EQUAL :: .INT v :: .SEMI :: r)
    (hfind : dictFindFrom s.dict nm IsVar s.last = i) (hi : i ≠ 0)
    (hnn : s.nnodes + 4 ≤ MAX_NODES) :
    parseNT (f + 7) .stmt s =
      .ok (.mk EXPR (.mk SET (.mk VAR .nil .nil .nil (i : Int))
          (.mk CST .nil .nil .nil (v : Int)) .nil 0) .nil .nil 0,
        ⟨r, s.nnodes + 4, s.last, s.dict, s.vm, s.here⟩) := by
  have u : parseNT (f + 7) = parseStep (parseNT (f + 6)) := rfl
  have hb : ¬ (1000 ≤ s.nnodes + 3) := by simp [MAX_NODES] at hnn; omega
  have hexpr := gexpr_assign f nm i v .SEMI s r hts rfl (by simp) (by simp) hfind hi
    (by omega)
  simp [u, parseStep, PM_bind_def, PM_pure_def, curSym, nextSymP, new_node,
    expect_sym, hts, hexpr, hb, MAX_NODES]

/-- The statement `nm = v;` for a fresh variable. -/
theorem gstmt_assign_new (f : Nat) (nm : String) (v : Nat) (s : St) (r : List Tok)
    (hts : s.toks = .ID nm :: .EQUAL :: .INT v :: .SEMI :: r)
    (hfind : dictFindFrom s.dict nm IsVar s.last = 0)
    (hnn : s.nnodes + 4 ≤ MAX_NODES) :
    parseNT (f + 7) .stmt s =
      .ok (.mk EXPR (.mk SET (.mk VAR .nil .nil .nil ((s.last + 1 : Nat) : Int))
          (.mk CST .nil .nil .nil (v : Int)) .nil 0) .nil .nil 0,
        ⟨r, s.nnodes + 4, s.last + 1,
         padSet s.dict (s.last + 1) dict0
           ⟨IsVar, (dictAt s.dict (s.last + 1)).val, nm⟩, s.vm, s.here⟩) := by
  have u : parseNT (f + 7) = parseStep (parseNT (f + 6)) := rfl
  have hb : ¬ (1000 ≤ s.nnodes + 3) := by simp [MAX_NODES] at hnn; omega
  have hexpr := gexpr_assign_new f nm v .SEMI s r hts rfl (by simp) (by simp) hfind
    (by omega)
  simp [u, parseStep, PM_bind_def, PM_pure_def, curSym, nextSymP, new_node,
    expect_sym, hts, hexpr, hb, MAX_NODES]

/-- Unrolling the block loop over `n` copies of the statement `nm = v;`
for a variable already in the table: each iteration adds one `SEQ` link
and five nodes, and the loop continues behind them. -/
theorem gblock_assigns (nm : String) (i v : Nat) :
    ∀ (n : Nat) (f : Nat) (x : node_t) (s : St) (r : List Tok) (res : node_t) (s2 : St),
    s.toks = repToks nm v n ++ r →
    dictFindFrom s.dict nm IsVar s.last = i → i ≠ 0 →
    s.nnodes + 5 * n ≤ MAX_NODES →
    parseNT (f + 7) (.blockLoop (seqExt i v x n))
      (⟨r, s.nnodes + 5 * n, s.last, s.dict, s.vm, s.here⟩ : St) = .ok (res, s2) →
    parseNT (n + (f + 7)) (.blockLoop x) s = .ok (res, s2) := by
  intro n
  induction n with
  | zero =>
    intro f x s r res s2 hts hfind hi hnn hcont
    rw [Nat.zero_add]
    simp [repToks] at hts
    have hs : s = (⟨r, s.nnodes + 5 * 0, s.last, s.dict, s.vm, s.here⟩ : St) := by
      rw [← hts]; simp
    rw [hs]
    exact hcont
  | succ n ih =>
    intro f x s r res s2 hts hfind hi hnn hcont
    rw [Nat.succ_add, parseNT_succ]
    simp [repToks] at hts
    have hb : ¬ (1000 ≤ s.nnodes) := by simp [MAX_NODES] at hnn; omega
    have hst : parseNT (n + (f + 7)) .stmt
        (⟨.ID nm :: .EQUAL :: .INT v :: .SEMI :: (repToks nm v n ++ r),
          s.nnodes + 1, s.last, s.dict, s.vm, s.here⟩ : St) =
        .ok (stmtNode i v,
          ⟨repToks nm v n ++ r, s.nnodes + 1 + 4, s.last, s.dict, s.vm, s.here⟩) := by
      have h := gstmt_assign (n + f) nm i v
        (⟨.ID nm :: .EQUAL :: .INT v :: .SEMI :: (repToks nm v n ++ r),
          s.nnodes + 1, s.last, s.dict, s.vm, s.here⟩ : St)
        (repToks nm v n ++ r) rfl hfind hi
        (by simp [MAX_NODES] at hnn ⊢; omega)
      simpa [stmtNode] using h
    have harith : s.nnodes + 5 * (n + 1) = s.nnodes + 1 + 4 + 5 * n := by omega
    rw [harith] at hcont
    have hrec : parseNT (n + (f + 7))
        (.blockLoop (.mk SEQ x (stmtNode i v) .nil 0))
        (⟨repToks nm v n ++ r, s.nnodes + 1 + 4, s.last, s.dict, s.vm, s.here⟩ : St) =
        .ok (res, s2) := by
      apply ih f (.mk SEQ x (stmtNode i v) .nil 0)
        (⟨repToks nm v n ++ r, s.nnodes + 1 + 4, s.last, s.dict, s.vm, s.here⟩ : St)
        r res s2 rfl hfind hi
        (by simp [MAX_NODES] at hnn ⊢; omega)
      have hse : seqExt i v (.mk SEQ x (stmtNode i v) .nil 0) n = seqExt i v x (n + 1) := rfl
      rw [hse]
      exact hcont
    simp [parseStep, PM_bind_def, PM_pure_def, curSym, nextSymP, new_node, hts,
      hst, hrec, hb, MAX_NODES]

set_option maxRecDepth 10000 in
theorem c6tok : tokenizeStr 400 src6 = .ok toks6 := by decide

set_option maxRecDepth 10000 in
theorem c6comp :
    compile ast6 (⟨[.EOI], 217, 3, dictMAB, [], 0⟩ : St) = compiled6 := by decide

set_option maxRecDepth 10000 in
theorem c6run : runN compiled6.vm 10 (initConfig compiled6) = .halted final6 := by decide

/-- The closing brace ends the loop body. -/
theorem c6exit :
    parseNT 353 (.blockLoop body6)
      (⟨[.RBRA, .RBRA, .EOI], 217, 3, dictMAB, [], 0⟩ : St) =
      .ok (body6, ⟨[.RBRA, .EOI], 217, 3, dictMAB, [], 0⟩) := by
  have u : parseNT 353 = parseStep (parseNT 352) := rfl
  simp [u, parseStep, PM_bind_def, PM_pure_def, curSym, nextSymP]

/-- The two trailing `b = 300;` statements, then the closing brace. -/
theorem c6restB :
    parseNT 355 (.blockLoop (.mk SEQ seqA (stmtNode 3 300) .nil 0))
      (⟨repToks "b" 300 2 ++ [.RBRA, .RBRA, .EOI], 207, 3, dictMAB, [], 0⟩ : St) =
      .ok (body6, ⟨[.RBRA, .EOI], 217, 3, dictMAB, [], 0⟩) := by
  have h := gblock_assigns "b" 3 300 2 346 (.mk SEQ seqA (stmtNode 3 300) .nil 0)
    (⟨repToks "b" 300 2 ++ [.RBRA, .RBRA, .EOI], 207, 3, dictMAB, [], 0⟩ : St)
    [.RBRA, .RBRA, .EOI] body6 (⟨[.RBRA, .EOI], 217, 3, dictMAB, [], 0⟩ : St)
    rfl (by decide) (by decide) (by decide) (c6exit)
  exact h

/-- The `b`-creating statement and everything behind it. -/
theorem c6blockB :
    parseNT 356 (.blockLoop seqA) (⟨tB, 202, 2, dictMA, [], 0⟩ : St) =
      .ok (body6, ⟨[.RBRA, .EOI], 217, 3, dictMAB, [], 0⟩) := by
  have u : parseNT 356 = parseStep (parseNT 355) := rfl
  have htb : tB = .ID "b" :: .EQUAL :: .INT 300 :: .SEMI ::
      (repToks "b" 300 2 ++ [.RBRA, .RBRA, .EOI]) := rfl
  have hstB : parseNT 355 .stmt
      (⟨.ID "b" :: .EQUAL :: .INT 300 :: .SEMI ::
        (repToks "b" 300 2 ++ [.RBRA, .RBRA, .EOI]), 203, 2, dictMA, [], 0⟩ : St) =
      .ok (stmtNode 3 300,
        ⟨repToks "b" 300 2 ++ [.RBRA, .RBRA, .EOI], 207, 3, dictMAB, [], 0⟩) := by
    have h := gstmt_assign_new 348 "b" 300
      (⟨.ID "b" :: .EQUAL :: .INT 300 :: .SEMI ::
        (repToks "b" 300 2 ++ [.RBRA, .RBRA, .EOI]), 203, 2, dictMA, [], 0⟩ : St)
      (repToks "b" 300 2 ++ [.RBRA, .RBRA, .EOI]) rfl (by decide) (by decide)
    simpa [stmtNode, dictMA, dictMAB, padSet, dictAt, dict0] using h
  simp [u, parseStep, PM_bind_def, PM_pure_def, curSym, nextSymP, new_node,
    htb, hstB, c6restB, MAX_NODES]

/-- The 38 further `a = 1;` statements and everything behind them. -/
theorem c6restA :
    parseNT 394 (.blockLoop (.mk SEQ (.mk EMPTY .nil .nil .nil 0) (stmtNode 2 1) .nil 0))
      (⟨tA 38, 12, 2, dictMA, [], 0⟩ : St) =
      .ok (body6, ⟨[.RBRA, .EOI], 217, 3, dictMAB, [], 0⟩) := by
  have h := gblock_assigns "a" 2 1 38 349
    (.mk SEQ (.mk EMPTY .nil .nil .nil 0) (stmtNode 2 1) .nil 0)
    (⟨tA 38, 12, 2, dictMA, [], 0⟩ : St) tB body6
    (⟨[.RBRA, .EOI], 217, 3, dictMAB, [], 0⟩ : St)
    rfl (by decide) (by decide) (by decide) (c6blockB)
  exact h

/-- The whole loop body `{ a = 1; … b = 300; … }` behind its brace. -/
theorem c6blockA :
    parseNT 395 (.blockLoop (.mk EMPTY .nil .nil .nil 0))
      (⟨tA 39, 7, 1, dictM, [], 0⟩ : St) =
      .ok (body6, ⟨[.RBRA, .EOI], 217, 3, dictMAB, [], 0⟩) := by
  have u : parseNT 395 = parseStep (parseNT 394) := rfl
  have hta : tA 39 = .ID "a" :: .EQUAL :: .INT 1 :: .SEMI :: tA 38 := rfl
  have hstA : parseNT 394 .stmt
      (⟨.ID "a" :: .EQUAL :: .INT 1 :: .SEMI :: tA 38, 8, 1, dictM, [], 0⟩ : St) =
      .ok (stmtNode 2 1, ⟨tA 38, 12, 2, dictMA, [], 0⟩) := by
    have h := gstmt_assign_new 387 "a" 1
      (⟨.ID "a" :: .EQUAL :: .INT 1 :: .SEMI :: tA 38, 8, 1, dictM, [], 0⟩ : St)
      (tA 38) rfl (by decide) (by decide)
    simpa [stmtNode, dictM, dictMA, padSet, dictAt, dict0] using h
  simp [u, parseStep, PM_bind_def, PM_pure_def, curSym, nextSymP, new_node,
    hta, hstA, c6restA, MAX_NODES]

/-- The statement `while (0) { … }`. -/
theorem c6while :
    parseNT 397 .stmt
      (⟨.WHILE_SYM :: .LPAR :: .INT 0 :: .RPAR :: .LBRA :: tA 39, 4, 1, dictM, [], 0⟩ : St) =
      .ok (.mk WHILE (.mk CST .nil .nil .nil 0) body6 .nil 0,
        ⟨[.RBRA, .EOI], 217, 3, dictMAB, [], 0⟩) := by
  have u : parseNT 397 = parseStep (parseNT 396) := rfl
  have hparen : parseNT 396 .parenExpr
      (⟨.LPAR :: .INT 0 :: .RPAR :: .LBRA :: tA 39, 5, 1, dictM, [], 0⟩ : St) =
      .ok (.mk CST .nil .nil .nil 0, ⟨.LBRA :: tA 39, 6, 1, dictM, [], 0⟩) := by
    have u' : parseNT 396 = parseStep (parseNT 395) := rfl
    have hx : parseNT 395 .expr
        (⟨.INT 0 :: .RPAR :: .LBRA :: tA 39, 5, 1, dictM, [], 0⟩ : St) =
        .ok (.mk CST .nil .nil .nil 0,
          ⟨.RPAR :: .LBRA :: tA 39, 6, 1, dictM, [], 0⟩) := by
      have h := gexpr_cst 391 0 .RPAR
        (⟨.INT 0 :: .RPAR :: .LBRA :: tA 39, 5, 1, dictM, [], 0⟩ : St)
        (.LBRA :: tA 39) rfl rfl (by simp) (by simp) (by decide)
      simpa using h
    simp [u', parseStep, PM_bind_def, PM_pure_def, expect_sym, hx]
  have hbody : parseNT 396 .stmt (⟨.LBRA :: tA 39, 6, 1, dictM, [], 0⟩ : St) =
      .ok (body6, ⟨[.RBRA, .EOI], 217, 3, dictMAB, [], 0⟩) := by
    have u' : parseNT 396 = parseStep (parseNT 395) := rfl
    simp [u', parseStep, PM_bind_def, PM_pure_def, curSym, nextSymP, new_node,
      c6blockA, MAX_NODES]
  simp [u, parseStep, PM_bind_def, PM_pure_def, curSym, nextSymP, new_node,
    hparen, hbody, MAX_NODES]

/-- The body of `main` folded into its `SEQ`. -/
theorem c6mainBlock :
    parseNT 398 (.blockLoop (.mk EMPTY .nil .nil .nil 0))
      (⟨.WHILE_SYM :: .LPAR :: .INT 0 :: .RPAR :: .LBRA :: tA 39, 3, 1, dictM, [], 0⟩ : St) =
      .ok (.mk SEQ (.mk EMPTY .nil .nil .nil 0)
          (.mk WHILE (.mk CST .nil .nil .nil 0) body6 .nil 0) .nil 0,
        ⟨[.EOI], 217, 3, dictMAB, [], 0⟩) := by
  have u : parseNT 398 = parseStep (parseNT 397) := rfl
  have hexit : parseNT 397 (.blockLoop (.mk SEQ (.mk EMPTY .nil .nil .nil 0)
      (.mk WHILE (.mk CST .nil .nil .nil 0) body6 .nil 0) .nil 0))
      (⟨[.RBRA, .EOI], 217, 3, dictMAB, [], 0⟩ : St) =
      .ok (.mk SEQ (.mk EMPTY .nil .nil .nil 0)
          (.mk WHILE (.mk CST .nil .nil .nil 0) body6 .nil 0) .nil 0,
        ⟨[.EOI], 217, 3, dictMAB, [], 0⟩) := by
    have u' : parseNT 397 = parseStep (parseNT 396) := rfl
    simp [u', parseStep, PM_bind_def, PM_pure_def, curSym, nextSymP]
  simp [u, parseStep, PM_bind_def, PM_pure_def, curSym, nextSymP, new_node,
    c6while, hexit, MAX_NODES]

/-- The brace statement forming `main`'s body. -/
theorem c6mainStmt :
    parseNT 399 .stmt
      (⟨.LBRA :: .WHILE_SYM :: .LPAR :: .INT 0 :: .RPAR :: .LBRA :: tA 39,
        2, 1, dictM, [], 0⟩ : St) =
      .ok (.mk SEQ (.mk EMPTY .nil .nil .nil 0)
          (.mk WHILE (.mk CST .nil .nil .nil 0) body6 .nil 0) .nil 0,
        ⟨[.EOI], 217, 3, dictMAB, [], 0⟩) := by
  have u : parseNT 399 = parseStep (parseNT 398) := rfl
  simp [u, parseStep, PM_bind_def, PM_pure_def, curSym, nextSymP, new_node,
    c6mainBlock, MAX_NODES]

set_option maxRecDepth 40000 in
/-- The definition `void main() { … }`. -/
theorem c6stmtVD :
    parseNT 400 .stmt (⟨toks6, 1, 0, [], [], 0⟩ : St) =
      .ok (.mk FUNC_DEF (.mk SEQ (.mk EMPTY .nil .nil .nil 0)
          (.mk WHILE (.mk CST .nil .nil .nil 0) body6 .nil 0) .nil 0) .nil .nil 1,
        ⟨[.EOI], 217, 3, dictMAB, [], 0⟩) := by
  have u : parseNT 400 = parseStep (parseNT 399) := rfl
  have hts : toks6 = .VOID_SYM :: .FUNC "main" :: .LBRA :: .WHILE_SYM :: .LPAR ::
      .INT 0 :: .RPAR :: .LBRA :: tA 39 := rfl
  have hdf : dict_find "main" IsFunc
      (⟨.LBRA :: .WHILE_SYM :: .LPAR :: .INT 0 :: .RPAR :: .LBRA :: tA 39,
        2, 0, [], [], 0⟩ : St) = 0 := by decide
  have hda : dict_add "main" IsFunc
      (⟨.LBRA :: .WHILE_SYM :: .LPAR :: .INT 0 :: .RPAR :: .LBRA :: tA 39,
        2, 0, [], [], 0⟩ : St) =
      (1, ⟨.LBRA :: .WHILE_SYM :: .LPAR :: .INT 0 :: .RPAR :: .LBRA :: tA 39,
        2, 1, dictM, [], 0⟩) := by decide
  simp [u, hts, parseStep, PM_bind_def, PM_pure_def, curSym, nextSymP, new_node,
    hdf, hda, c6mainStmt, MAX_NODES]

/-- `program()` on the token stream of the counterexample source. -/
theorem c6program :
    program 400 (initSt toks6) = .ok (ast6, ⟨[.EOI], 217, 3, dictMAB, [], 0⟩) := by
  simp [program, initSt, PM_bind_def, PM_pure_def, new_node, c6stmtVD, ast6, MAX_NODES]

/-- The full pipeline on the counterexample source. -/
theorem c6pipeline : runProgram 400 10 src6 = .ok (compiled6, .halted final6) := by
  simp [runProgram, c6tok, c6program, c6comp, c6run]

/-- C6: REFUTED.  The claim says every well-formed source program whose
compiled code terminates normally (executing `HALT`, or `IRET` on an empty
return stack) exits with an empty operand stack.  Counterexample: the
well-formed source `src6` — `void main() { while (0) { …42 assignments,
255 bytes of body… } }` — is accepted by the whole pipeline, and its run
terminates by executing the `HALT` opcode (the byte before the final pc)
with `[0]` still on the operand stack.  The loop's forward `JZ`
displacement is 258, which the unchecked `char` store of `fix` wraps to
2, so the taken branch lands inside the first statement's operand bytes
and executes `FETCH`/`HALT` out of alignment, leaving the fetched value
behind. -/
theorem C6_jump_overflow_counterexample :
    runProgram 400 10 src6 = .ok (compiled6, .halted final6) ∧
    vmAt compiled6.vm (final6.pc - 1).toNat = HALT ∧
    final6.st = [0] :=
  ⟨c6pipeline, by decide, rfl⟩

end TinyC
